import Mathlib

/-! # The local store of `play` (`stores/local.go`)

A shallow embedding of `LocalStore.Handle` and of the collaborators it calls
(the key-value store, the navigation location, the remote share service, the
editor store, the dispatcher and the failure sink), followed by theorems about
the handler.

Collaborators are modelled by an environment `Env` (their answers) and a
`State` (what the handler can change: the stored items, the editor store and a
chronological log of every effect performed).
-/

namespace Stores

/-! ## Data model -/

/-- A Go `float64` that is only stored and forwarded (never computed with). -/
abbrev Float64 := Rat

/-- Go `map[string]string`: file name to contents, as an association list. -/
abbrev FileSet := List (String × String)

/-- Go `error`, represented by its message. -/
abbrev Error := String

/-- The structured values the key-value store holds. -/
inductive Value where
  | sizes (v : List Float64)
  | files (v : FileSet)
  | text (v : String)
  deriving DecidableEq, Repr

/-- The actions of package `actions` that the store consumes or emits; `Other`
stands for every action kind the type switch does not name. -/
inductive Action where
  | Load
  | ChangeSplit (Sizes : List Float64)
  | LoadFiles (Files : FileSet) (Current : String)
  | GetStart (Path : String)
  | UserChangedSplit (Sizes : List Float64)
  | UserChangedText
  | UserChangedFile
  | AddFile
  | DeleteFile
  | Other (kind : String)
  deriving DecidableEq, Repr

/-- The type `flux.Payload`: the action being dispatched. -/
structure Payload where
  Action : Action
  deriving DecidableEq, Repr

/-- The type `messages.Share`: only the field `Source` is consumed. -/
structure Share where
  Source : List (String × FileSet)
  deriving DecidableEq, Repr

/-- A response body, by what decoding it as a `Share` gives. -/
inductive Body where
  | invalid (err : Error)
  | json (m : Share)
  deriving DecidableEq, Repr

/-- The type `http.Response`. -/
structure Response where
  StatusCode : Int
  Body : Body
  deriving DecidableEq, Repr

/-- The editor store: the file set and the current file name it holds. -/
structure Editor where
  files : FileSet
  current : String
  deriving DecidableEq, Repr

/-- Every effect the handler can perform, as recorded in the log. -/
inductive Effect where
  | find (key : String)
  | save (key : String) (v : Value)
  | dispatch (a : Action)
  | fail (err : Error)
  | get (url : String)
  | decode
  | wait
  | editorFiles
  | editorCurrent
  deriving DecidableEq, Repr

/-- The answers of the collaborators during one call of the handler. -/
structure Env where
  /-- Value of `dom.GetWindow().Location().Pathname`. -/
  Pathname : String
  /-- Value of `app.SrcHost()`. -/
  SrcHost : String
  /-- Failure of reading a key, if the store reports one. -/
  findErr : String → Option Error
  /-- Failure of saving a value under a key, if the store reports one. -/
  saveErr : String → Value → Option Error
  /-- Outcome of `http.Get` on a URL. -/
  Get : String → Except Error Response
  /-- How the editor store handles a payload. -/
  editorHandle : Payload → Editor → Editor

/-- What the handler can change. -/
structure State where
  /-- The items of the key-value store. -/
  items : List (String × Value)
  /-- The editor store. -/
  editor : Editor
  /-- Whether the editor store has already handled the current payload. -/
  editorDone : Bool
  /-- Every effect performed so far, oldest first. -/
  log : List Effect

/-! ## Strings and the hash pattern -/

/-- Go `strings.TrimPrefix`: drop one leading occurrence of `pre`, if any. -/
def TrimPrefix (s pre : String) : String :=
  if pre.data.isPrefixOf s.data then String.mk (s.data.drop pre.data.length) else s

/-- Go `strings.TrimSuffix`: drop one trailing occurrence of `suf`, if any. -/
def TrimSuffix (s suf : String) : String :=
  if suf.data.isSuffixOf s.data then
    String.mk (s.data.take (s.data.length - suf.data.length))
  else s

/-- A compiled pattern of the shape `^[r1r2...]{n}$`: `count` characters, each
inside one of the inclusive `ranges`. -/
structure Regexp where
  ranges : List (Char × Char)
  count : Nat

/-- Whether a character lies in one of the ranges of the class. -/
def Regexp.inClass (re : Regexp) (c : Char) : Bool :=
  re.ranges.any (fun r => decide (r.1 ≤ c) && decide (c ≤ r.2))

/-- Go `(*Regexp).MatchString` for a pattern anchored at both ends. -/
def Regexp.MatchString (re : Regexp) (s : String) : Bool :=
  s.data.length == re.count && s.data.all re.inClass

/-- The pattern `regexp.MustCompile("^[0-9a-f]{40}$")`. -/
def shaRegex : Regexp := ⟨[('0', '9'), ('a', 'f')], 40⟩

/-! ## Compiled-in defaults -/

def defaultSizes : List Float64 := [50, 50]

def defaultFile : String := "main.go"

def defaultFiles : FileSet :=
  [("main.go",
    "package main\n\nimport (\n\t\"honnef.co/go/js/dom\"\n)\n\nfunc main() \x7b\n    body := dom.GetWindow().Document().GetElementsByTagName(\"body\")[0]\n\tbody.SetInnerHTML(\"Hello, World! \" + randnum())\n\x7d"),
   ("rand.go",
    "package main\n\nimport (\n    \"fmt\"\n    \"time\"\n    \"math/rand\"\n)\n\nfunc randnum() string \x7b\n    r := rand.Intn(10000)\n    return fmt.Sprint(r)\n\x7d\n\nfunc init() \x7b\n    rand.Seed(time.Now().UTC().UnixNano())\n\x7d")]

/-! ## Collaborators -/

/-- Append one effect to the log. -/
def State.record (s : State) (e : Effect) : State :=
  { s with log := s.log ++ [e] }

/-- Decoders of a stored value into the holder types used by the handler. -/
def Value.toSizes : Value → Option (List Float64)
  | .sizes v => some v
  | _ => none

def Value.toFiles : Value → Option FileSet
  | .files v => some v
  | _ => none

def Value.toText : Value → Option String
  | .text v => some v
  | _ => none

/-- The error of decoding a stored value into a holder of another type. -/
def unmarshalError : Error := "json: cannot unmarshal stored value into holder"

/-- What `local.Find(key, &holder)` hands back: the holder after the call,
whether the key was found, and the error if any. -/
structure FindResult (α : Type) where
  holder : α
  found : Bool
  err : Option Error

/-- Reading a key from the items: a key that is absent leaves the holder as it
was; a stored value of another type than the holder is a decoding error. -/
def readItem {α : Type} (env : Env) (items : List (String × Value)) (key : String)
    (dec : Value → Option α) (holder : α) : FindResult α :=
  match env.findErr key with
  | some err => ⟨holder, false, some err⟩
  | none =>
    match items.lookup key with
    | none => ⟨holder, false, none⟩
    | some v =>
      match dec v with
      | some a => ⟨a, true, none⟩
      | none => ⟨holder, true, some unmarshalError⟩

/-- The call `local.Find(key, &holder)`. -/
def Find {α : Type} (env : Env) (key : String) (dec : Value → Option α)
    (holder : α) (s : State) : FindResult α × State :=
  (readItem env s.items key dec holder, s.record (.find key))

/-- The call `local.Save(key, value)`: on success the key holds the value. -/
def Save (env : Env) (key : String) (v : Value) (s : State) : Option Error × State :=
  let s := s.record (.save key v)
  match env.saveErr key v with
  | some err => (some err, s)
  | none => (none, { s with items := (key, v) :: s.items.filter (fun kv => kv.1 != key) })

/-- The call `app.Dispatch(action)`. -/
def Dispatch (a : Action) (s : State) : State := s.record (.dispatch a)

/-- The call `app.Fail(err)`. -/
def Fail (err : Error) (s : State) : State := s.record (.fail err)

/-- The call `http.Get(url)`. -/
def httpGet (env : Env) (url : String) (s : State) : Except Error Response × State :=
  (env.Get url, s.record (.get url))

/-- The call `json.NewDecoder(resp.Body).Decode(&m)`. -/
def Decode (body : Body) (s : State) : Except Error Share × State :=
  let s := s.record .decode
  match body with
  | .invalid err => (.error err, s)
  | .json m => (.ok m, s)

/-- The call `payload.Wait(app.Editor)`: returns once the editor store has
handled this payload. -/
def Wait (env : Env) (payload : Payload) (s : State) : State :=
  let s := s.record .wait
  if s.editorDone then s
  else { s with editor := env.editorHandle payload s.editor, editorDone := true }

/-- The call `app.Editor.Files()`. -/
def EditorFiles (s : State) : FileSet × State := (s.editor.files, s.record .editorFiles)

/-- The call `app.Editor.Current()`. -/
def EditorCurrent (s : State) : String × State := (s.editor.current, s.record .editorCurrent)

/-! ## The store -/

def saveFiles (env : Env) (s : State) : Option Error × State :=
  let (files, s) := EditorFiles s
  Save env "files" (.files files) s

def saveCurrentFile (env : Env) (s : State) : Option Error × State :=
  let (current, s) := EditorCurrent s
  Save env "current-file" (.text current) s

/-- The method `LocalStore.Handle`: the returned flag and the state after. -/
def Handle (env : Env) (payload : Payload) (s : State) : Bool × State :=
  match payload.Action with
  | .Load =>
    let (sizes, s) := Find env "split-sizes" Value.toSizes [] s
    match sizes.err with
    | some err => (true, Fail err s)
    | none =>
      let sizes := if !sizes.found then defaultSizes else sizes.holder
      let s := Dispatch (.ChangeSplit sizes) s
      let location := TrimPrefix env.Pathname "/"
      if location = "" then
        -- No hash -> load files from local storage or use default files
        let (files, s) := Find env "files" Value.toFiles [] s
        match files.err with
        | some err => (true, Fail err s)
        | none =>
          if files.found then
            -- if we found files in local storage, also load the current file
            let (current, s) := Find env "current-file" Value.toText "" s
            match current.err with
            | some err => (true, Fail err s)
            | none => (true, Dispatch (.LoadFiles files.holder current.holder) s)
          else
            (true, Dispatch (.LoadFiles defaultFiles defaultFile) s)
      else if shaRegex.MatchString location then
        -- Sha in hash -> load files from src.jsgo.io json blob
        let (resp, s) := httpGet env ("https://" ++ env.SrcHost ++ "/" ++ location ++ ".json") s
        match resp with
        | .error err => (true, Fail err s)
        | .ok resp =>
          if resp.StatusCode ≠ 200 then
            (true, Fail ("error " ++ toString resp.StatusCode ++ " loading source") s)
          else
            let (m, s) := Decode resp.Body s
            match m with
            | .error err => (true, Fail err s)
            | .ok m =>
              match m.Source.lookup "main" with
              | none => (true, Fail "package main not found in source" s)
              | some files => (true, Dispatch (.LoadFiles files "") s)
      else
        -- Package path in hash -> open websocket and load files
        let location := TrimSuffix location "/"
        (true, Dispatch (.GetStart location) s)
  | .UserChangedSplit Sizes =>
    match Save env "split-sizes" (.sizes Sizes) s with
    | (some err, s) => (true, Fail err s)
    | (none, s) => (true, s)
  | .UserChangedText =>
    let s := Wait env payload s
    match saveFiles env s with
    | (some err, s) => (true, Fail err s)
    | (none, s) => (true, s)
  | .UserChangedFile =>
    let s := Wait env payload s
    match saveCurrentFile env s with
    | (some err, s) => (true, Fail err s)
    | (none, s) => (true, s)
  | .AddFile | .DeleteFile =>
    let s := Wait env payload s
    match saveFiles env s with
    | (some err, s) => (true, Fail err s)
    | (none, s) =>
      match saveCurrentFile env s with
      | (some err, s) => (true, Fail err s)
      | (none, s) => (true, s)
  | _ => (true, s)

/-- The effects performed by one call of the handler, oldest first. -/
def effects (env : Env) (payload : Payload) (s : State) : List Effect :=
  (Handle env payload s).2.log.drop s.log.length

/-! ## Observations on a sequence of effects -/

/-- The actions dispatched, in order. -/
def emitted (t : List Effect) : List Action :=
  t.filterMap (fun e => match e with | .dispatch a => some a | _ => none)

/-- The errors reported to the failure sink, in order. -/
def failures (t : List Effect) : List Error :=
  t.filterMap (fun e => match e with | .fail err => some err | _ => none)

/-- The URLs fetched, in order. -/
def fetched (t : List Effect) : List String :=
  t.filterMap (fun e => match e with | .get url => some url | _ => none)

/-- The storage keys read, in order. -/
def keysRead (t : List Effect) : List String :=
  t.filterMap (fun e => match e with | .find key => some key | _ => none)

/-- The storage writes, in order. -/
def saves (t : List Effect) : List (String × Value) :=
  t.filterMap (fun e => match e with | .save key v => some (key, v) | _ => none)

def Action.isLoadFiles : Action → Bool
  | .LoadFiles _ _ => true
  | _ => false

def Action.isGetStart : Action → Bool
  | .GetStart _ => true
  | _ => false

/-- The local-storage strategy ran: the key `files` was read. -/
def ranLocal (t : List Effect) : Bool := (keysRead t).contains "files"

/-- The hash strategy ran: a remote fetch was made. -/
def ranHash (t : List Effect) : Bool := !(fetched t).isEmpty

/-- The package-path strategy ran: a `GetStart` was dispatched. -/
def ranPackage (t : List Effect) : Bool := (emitted t).any Action.isGetStart

/-- The hash pattern in the words of the specification: exactly 40 characters,
each one of `0-9` or `a-f`. -/
def IsContentHash (location : String) : Prop :=
  location.data.length = 40 ∧ ∀ c ∈ location.data, c ∈ "0123456789abcdef".data

instance (location : String) : Decidable (IsContentHash location) := by
  unfold IsContentHash; infer_instance

/-- The location the handler classifies: the pathname without its leading slash. -/
def locationOf (env : Env) : String := TrimPrefix env.Pathname "/"

/-- The URL the hash strategy fetches for a location. -/
def shareURL (env : Env) (location : String) : String :=
  "https://" ++ env.SrcHost ++ "/" ++ location ++ ".json"

/-- What the read of `split-sizes` at the start of a `Load` hands back. -/
def readSizes (env : Env) (s : State) : FindResult (List Float64) :=
  (Find env "split-sizes" Value.toSizes [] s).1

/-- What the read of `files` during a `Load` hands back. -/
def readFiles (env : Env) (s : State) : FindResult FileSet :=
  (Find env "files" Value.toFiles [] s).1

/-- What the read of `current-file` during a `Load` hands back. -/
def readCurrent (env : Env) (s : State) : FindResult String :=
  (Find env "current-file" Value.toText "" s).1

/-- The sizes a `Load` resolves: the stored ones if found, else the default. -/
def resolvedSizes (env : Env) (s : State) : List Float64 :=
  if !(readSizes env s).found then defaultSizes else (readSizes env s).holder

/-- The four events after which the file set or the current file is persisted. -/
def Action.isFileEvent : Action → Bool
  | .UserChangedText | .UserChangedFile | .AddFile | .DeleteFile => true
  | _ => false

/-- An effect that reads the editor store or persists what was read from it. -/
def Effect.needsSettled : Effect → Bool
  | .editorFiles | .editorCurrent => true
  | .save key _ => key == "files" || key == "current-file"
  | _ => false

/-- The error, if any, of reading a key into the holder the handler uses for
it: a list of sizes for `split-sizes`, a file set for `files`, a string else. -/
def findError (env : Env) (items : List (String × Value)) (key : String) : Option Error :=
  if key = "split-sizes" then (readItem env items key Value.toSizes []).err
  else if key = "files" then (readItem env items key Value.toFiles []).err
  else (readItem env items key Value.toText "").err

/-- The error, if any, of using a response: another status than 200. -/
def statusError (resp : Response) : Option Error :=
  if resp.StatusCode ≠ 200 then
    some ("error " ++ toString resp.StatusCode ++ " loading source")
  else none

/-- The error, if any, of decoding a body and taking its `main` package. -/
def mainError : Body → Option Error
  | .invalid err => some err
  | .json m =>
    match m.Source.lookup "main" with
    | none => some "package main not found in source"
    | some _ => none

/-- The errors with which the operations of a sequence of effects ended, in
order, asked again from the collaborators: reads and saves of the store,
fetches (transport error or status), and the decoding of the body last fetched
(`last`) down to its `main` package. Dispatching, reporting, waiting and
reading the editor cannot fail. -/
def operationErrors (env : Env) (items : List (String × Value)) :
    Option Response → List Effect → List Error
  | _, [] => []
  | last, .find key :: t => (findError env items key).toList ++ operationErrors env items last t
  | last, .save key v :: t => (env.saveErr key v).toList ++ operationErrors env items last t
  | _, .get url :: t =>
    match env.Get url with
    | .error err => err :: operationErrors env items none t
    | .ok resp => (statusError resp).toList ++ operationErrors env items (some resp) t
  | last, .decode :: t =>
    (match last with
      | some resp => (mainError resp.Body).toList
      | none => []) ++ operationErrors env items last t
  | last, _ :: t => operationErrors env items last t

/-! ## Sample collaborators and states -/

/-- An environment with the given pathname where every collaborator succeeds. -/
def sampleEnv (pathname : String) : Env where
  Pathname := pathname
  SrcHost := "src.jsgo.io"
  findErr := fun _ => none
  saveErr := fun _ _ => none
  Get := fun _ => .ok ⟨200, .json ⟨[("main", [("main.go", "package main")])]⟩⟩
  editorHandle := fun _ e => e

/-- A state with nothing stored and an editor holding one file. -/
def sampleState : State where
  items := []
  editor := ⟨[("main.go", "package main")], "main.go"⟩
  editorDone := false
  log := []

/-- A 40-character lowercase-hex location. -/
def sampleHash : String := "0123456789abcdef0123456789abcdef01234567"

/-- A state whose store holds the file set `{"a.go": "x"}`, the current file
`a.go` and the split sizes `[30, 70]`. -/
def storedState : State where
  items := [("files", .files [("a.go", "x")]), ("current-file", .text "a.go"),
    ("split-sizes", .sizes [30, 70])]
  editor := ⟨[("a.go", "x")], "a.go"⟩
  editorDone := false
  log := []

/-- An environment whose share service answers every fetch with the given
outcome. -/
def fetchEnv (pathname : String) (answer : Except Error Response) : Env :=
  { sampleEnv pathname with Get := fun _ => answer }

/-- An environment whose store refuses every save under the given key. -/
def fullEnv (key : String) : Env :=
  { sampleEnv "/" with saveErr := fun k _ => if k = key then some "quota exceeded" else none }

/-- A state whose store holds the file set `{"a.go": "x"}` and nothing else. -/
def filesOnlyState : State where
  items := [("files", .files [("a.go", "x")])]
  editor := ⟨[("a.go", "x")], "a.go"⟩
  editorDone := false
  log := []

/-- An environment whose store fails every read of the given key. -/
def brokenEnv (pathname key : String) : Env :=
  { sampleEnv pathname with
    findErr := fun k => if k = key then some "storage unavailable" else none }

/-! ## Basic facts -/

theorem TrimPrefix_slash_append (x : String) : TrimPrefix ("/" ++ x) "/" = x := by
  simp [TrimPrefix, String.data_append]

theorem TrimSuffix_append_slash (x : String) : TrimSuffix (x ++ "/") "/" = x := by
  simp [TrimSuffix, String.data_append]

theorem TrimSuffix_of_not_suffix (x : String) (h : ¬ ("/".data <:+ x.data)) :
    TrimSuffix x "/" = x := by
  simp only [TrimSuffix, ite_eq_right_iff]
  intro h2
  exact absurd h2 (by simpa using h)

theorem inClass_sha_iff (c : Char) :
    shaRegex.inClass c = true ↔ c ∈ "0123456789abcdef".data := by
  constructor
  · intro h
    have h2 : (48 ≤ c.toNat ∧ c.toNat ≤ 57) ∨ (97 ≤ c.toNat ∧ c.toNat ≤ 102) := by
      simpa [Regexp.inClass, shaRegex, Char.le_def, UInt32.le_def, Char.toNat] using h
    have hc : c = Char.ofNat c.toNat := (Char.ofNat_toNat c).symm
    rcases h2 with ⟨h1, h3⟩ | ⟨h1, h3⟩
    · rw [hc]; interval_cases c.toNat <;> decide
    · rw [hc]; interval_cases c.toNat <;> decide
  · intro h
    have hall : "0123456789abcdef".data.all shaRegex.inClass = true := by decide
    exact List.all_eq_true.1 hall c h

theorem MatchString_sha_iff (location : String) :
    shaRegex.MatchString location = true ↔ IsContentHash location := by
  unfold Regexp.MatchString IsContentHash
  rw [Bool.and_eq_true, List.all_eq_true, beq_iff_eq]
  constructor
  · rintro ⟨h1, h2⟩
    exact ⟨h1, fun c hc => (inClass_sha_iff c).1 (h2 c hc)⟩
  · rintro ⟨h1, h2⟩
    exact ⟨h1, fun c hc => (inClass_sha_iff c).2 (h2 c hc)⟩

@[simp] theorem record_log (s : State) (e : Effect) : (s.record e).log = s.log ++ [e] := rfl

@[simp] theorem record_items (s : State) (e : Effect) : (s.record e).items = s.items := rfl

theorem drop_log (l t : List Effect) : (l ++ t).drop l.length = t := by
  simp

/-- Trace of a `Load` whose read of `split-sizes` fails. -/
theorem effects_Load_sizes_error (env : Env) (s : State) (err : Error)
    (hs : (readSizes env s).err = some err) :
    effects env ⟨.Load⟩ s = [.find "split-sizes", .fail err] := by
  simp only [readSizes, Find] at hs
  simp [effects, Handle, Find, hs, Fail]

/-- Trace of a `Load` whose location is a package path. -/
theorem effects_Load_package (env : Env) (s : State)
    (hs : (readSizes env s).err = none)
    (h1 : locationOf env ≠ "") (h2 : shaRegex.MatchString (locationOf env) = false) :
    effects env ⟨.Load⟩ s =
      [.find "split-sizes", .dispatch (.ChangeSplit (resolvedSizes env s)),
       .dispatch (.GetStart (TrimSuffix (locationOf env) "/"))] := by
  unfold locationOf at h1 h2
  simp only [readSizes, Find] at hs
  simp [effects, Handle, Find, hs, h1, h2, Dispatch, locationOf, resolvedSizes, readSizes]

/-- Trace of a `Load` with an empty location whose read of `files` fails. -/
theorem effects_Load_files_error (env : Env) (s : State) (err : Error)
    (hs : (readSizes env s).err = none) (h1 : locationOf env = "")
    (hf : (readFiles env s).err = some err) :
    effects env ⟨.Load⟩ s =
      [.find "split-sizes", .dispatch (.ChangeSplit (resolvedSizes env s)),
       .find "files", .fail err] := by
  unfold locationOf at h1
  simp only [readSizes, readFiles, Find] at hs hf
  simp [effects, Handle, Find, hs, h1, hf, Dispatch, Fail, resolvedSizes, readSizes]

/-- Trace of a `Load` with an empty location and no stored `files`. -/
theorem effects_Load_default (env : Env) (s : State)
    (hs : (readSizes env s).err = none) (h1 : locationOf env = "")
    (hf : (readFiles env s).err = none) (hn : (readFiles env s).found = false) :
    effects env ⟨.Load⟩ s =
      [.find "split-sizes", .dispatch (.ChangeSplit (resolvedSizes env s)),
       .find "files", .dispatch (.LoadFiles defaultFiles defaultFile)] := by
  unfold locationOf at h1
  simp only [readSizes, readFiles, Find] at hs hf hn
  simp [effects, Handle, Find, hs, h1, hf, hn, Dispatch, resolvedSizes, readSizes]

/-- Trace of a `Load` with an empty location, stored `files` and a failing
read of `current-file`. -/
theorem effects_Load_current_error (env : Env) (s : State) (err : Error)
    (hs : (readSizes env s).err = none) (h1 : locationOf env = "")
    (hf : (readFiles env s).err = none) (hn : (readFiles env s).found = true)
    (hc : (readCurrent env s).err = some err) :
    effects env ⟨.Load⟩ s =
      [.find "split-sizes", .dispatch (.ChangeSplit (resolvedSizes env s)),
       .find "files", .find "current-file", .fail err] := by
  unfold locationOf at h1
  simp only [readSizes, readFiles, readCurrent, Find] at hs hf hn hc
  simp [effects, Handle, Find, hs, h1, hf, hn, hc, Dispatch, Fail, resolvedSizes, readSizes]

/-- Trace of a `Load` with an empty location and stored `files`. -/
theorem effects_Load_stored (env : Env) (s : State)
    (hs : (readSizes env s).err = none) (h1 : locationOf env = "")
    (hf : (readFiles env s).err = none) (hn : (readFiles env s).found = true)
    (hc : (readCurrent env s).err = none) :
    effects env ⟨.Load⟩ s =
      [.find "split-sizes", .dispatch (.ChangeSplit (resolvedSizes env s)),
       .find "files", .find "current-file",
       .dispatch (.LoadFiles (readFiles env s).holder (readCurrent env s).holder)] := by
  unfold locationOf at h1
  simp only [readSizes, readFiles, readCurrent, Find] at hs hf hn hc
  simp [effects, Handle, Find, hs, h1, hf, hn, hc, Dispatch, resolvedSizes, readSizes,
    readFiles, readCurrent]

/-- A content hash is not the empty string. -/
theorem ne_empty_of_match (location : String)
    (h : shaRegex.MatchString location = true) : location ≠ "" := by
  rintro rfl
  revert h
  decide

/-- Trace of a `Load` with a hash location whose fetch fails in transport. -/
theorem effects_Load_get_error (env : Env) (s : State) (err : Error)
    (hs : (readSizes env s).err = none)
    (h2 : shaRegex.MatchString (locationOf env) = true)
    (hg : env.Get (shareURL env (locationOf env)) = .error err) :
    effects env ⟨.Load⟩ s =
      [.find "split-sizes", .dispatch (.ChangeSplit (resolvedSizes env s)),
       .get (shareURL env (locationOf env)), .fail err] := by
  have h1 := ne_empty_of_match _ h2
  unfold shareURL at hg
  unfold locationOf at h1 h2 hg
  simp only [readSizes, Find] at hs
  simp [effects, Handle, Find, hs, h1, h2, hg, Dispatch, Fail, httpGet, resolvedSizes,
    readSizes, shareURL, locationOf]

/-- Trace of a `Load` with a hash location whose fetch answers another status
than 200. -/
theorem effects_Load_status (env : Env) (s : State) (resp : Response)
    (hs : (readSizes env s).err = none)
    (h2 : shaRegex.MatchString (locationOf env) = true)
    (hg : env.Get (shareURL env (locationOf env)) = .ok resp)
    (hn : resp.StatusCode ≠ 200) :
    effects env ⟨.Load⟩ s =
      [.find "split-sizes", .dispatch (.ChangeSplit (resolvedSizes env s)),
       .get (shareURL env (locationOf env)),
       .fail ("error " ++ toString resp.StatusCode ++ " loading source")] := by
  have h1 := ne_empty_of_match _ h2
  unfold shareURL at hg
  unfold locationOf at h1 h2 hg
  simp only [readSizes, Find] at hs
  simp [effects, Handle, Find, hs, h1, h2, hg, hn, Dispatch, Fail, httpGet, resolvedSizes,
    readSizes, shareURL, locationOf]

/-- Trace of a `Load` with a hash location whose body does not decode. -/
theorem effects_Load_decode_error (env : Env) (s : State) (err : Error)
    (hs : (readSizes env s).err = none)
    (h2 : shaRegex.MatchString (locationOf env) = true)
    (hg : env.Get (shareURL env (locationOf env)) = .ok ⟨200, .invalid err⟩) :
    effects env ⟨.Load⟩ s =
      [.find "split-sizes", .dispatch (.ChangeSplit (resolvedSizes env s)),
       .get (shareURL env (locationOf env)), .decode, .fail err] := by
  have h1 := ne_empty_of_match _ h2
  unfold shareURL at hg
  unfold locationOf at h1 h2 hg
  simp only [readSizes, Find] at hs
  simp [effects, Handle, Find, hs, h1, h2, hg, Dispatch, Fail, httpGet, Decode, resolvedSizes,
    readSizes, shareURL, locationOf]

/-- Trace of a `Load` with a hash location whose blob has no `main` entry. -/
theorem effects_Load_no_main (env : Env) (s : State) (m : Share)
    (hs : (readSizes env s).err = none)
    (h2 : shaRegex.MatchString (locationOf env) = true)
    (hg : env.Get (shareURL env (locationOf env)) = .ok ⟨200, .json m⟩)
    (hm : m.Source.lookup "main" = none) :
    effects env ⟨.Load⟩ s =
      [.find "split-sizes", .dispatch (.ChangeSplit (resolvedSizes env s)),
       .get (shareURL env (locationOf env)), .decode,
       .fail "package main not found in source"] := by
  have h1 := ne_empty_of_match _ h2
  unfold shareURL at hg
  unfold locationOf at h1 h2 hg
  simp only [readSizes, Find] at hs
  simp [effects, Handle, Find, hs, h1, h2, hg, hm, Dispatch, Fail, httpGet, Decode,
    resolvedSizes, readSizes, shareURL, locationOf]

/-- Trace of a `Load` with a hash location whose blob has a `main` entry. -/
theorem effects_Load_main (env : Env) (s : State) (m : Share) (files : FileSet)
    (hs : (readSizes env s).err = none)
    (h2 : shaRegex.MatchString (locationOf env) = true)
    (hg : env.Get (shareURL env (locationOf env)) = .ok ⟨200, .json m⟩)
    (hm : m.Source.lookup "main" = some files) :
    effects env ⟨.Load⟩ s =
      [.find "split-sizes", .dispatch (.ChangeSplit (resolvedSizes env s)),
       .get (shareURL env (locationOf env)), .decode,
       .dispatch (.LoadFiles files "")] := by
  have h1 := ne_empty_of_match _ h2
  unfold shareURL at hg
  unfold locationOf at h1 h2 hg
  simp only [readSizes, Find] at hs
  simp [effects, Handle, Find, hs, h1, h2, hg, hm, Dispatch, httpGet, Decode,
    resolvedSizes, readSizes, shareURL, locationOf]

/-- The possible traces of a `Load` with an empty location. -/
theorem effects_Load_local_cases (env : Env) (s : State)
    (hs : (readSizes env s).err = none) (h1 : locationOf env = "") :
    (∃ err, effects env ⟨.Load⟩ s =
      [.find "split-sizes", .dispatch (.ChangeSplit (resolvedSizes env s)),
       .find "files", .fail err]) ∨
    (effects env ⟨.Load⟩ s =
      [.find "split-sizes", .dispatch (.ChangeSplit (resolvedSizes env s)),
       .find "files", .dispatch (.LoadFiles defaultFiles defaultFile)]) ∨
    (∃ err, effects env ⟨.Load⟩ s =
      [.find "split-sizes", .dispatch (.ChangeSplit (resolvedSizes env s)),
       .find "files", .find "current-file", .fail err]) ∨
    (∃ files current, effects env ⟨.Load⟩ s =
      [.find "split-sizes", .dispatch (.ChangeSplit (resolvedSizes env s)),
       .find "files", .find "current-file", .dispatch (.LoadFiles files current)]) := by
  rcases hfe : (readFiles env s).err with _ | e
  · by_cases hfound : (readFiles env s).found = true
    · rcases hce : (readCurrent env s).err with _ | e
      · exact Or.inr (Or.inr (Or.inr ⟨_, _, effects_Load_stored env s hs h1 hfe hfound hce⟩))
      · exact Or.inr (Or.inr (Or.inl ⟨e, effects_Load_current_error env s e hs h1 hfe hfound hce⟩))
    · rw [Bool.not_eq_true] at hfound
      exact Or.inr (Or.inl (effects_Load_default env s hs h1 hfe hfound))
  · exact Or.inl ⟨e, effects_Load_files_error env s e hs h1 hfe⟩

/-- The possible traces of a `Load` whose location is a content hash. -/
theorem effects_Load_hash_cases (env : Env) (s : State)
    (hs : (readSizes env s).err = none)
    (h2 : shaRegex.MatchString (locationOf env) = true) :
    (∃ err, effects env ⟨.Load⟩ s =
      [.find "split-sizes", .dispatch (.ChangeSplit (resolvedSizes env s)),
       .get (shareURL env (locationOf env)), .fail err]) ∨
    (∃ err, effects env ⟨.Load⟩ s =
      [.find "split-sizes", .dispatch (.ChangeSplit (resolvedSizes env s)),
       .get (shareURL env (locationOf env)), .decode, .fail err]) ∨
    (∃ files, effects env ⟨.Load⟩ s =
      [.find "split-sizes", .dispatch (.ChangeSplit (resolvedSizes env s)),
       .get (shareURL env (locationOf env)), .decode, .dispatch (.LoadFiles files "")]) := by
  rcases hg : env.Get (shareURL env (locationOf env)) with e | ⟨code, body⟩
  · exact Or.inl ⟨e, effects_Load_get_error env s e hs h2 hg⟩
  · by_cases hc : code = 200
    · subst hc
      rcases body with e | m
      · exact Or.inr (Or.inl ⟨e, effects_Load_decode_error env s e hs h2 hg⟩)
      · rcases hm : m.Source.lookup "main" with _ | files
        · exact Or.inr (Or.inl ⟨_, effects_Load_no_main env s m hs h2 hg hm⟩)
        · exact Or.inr (Or.inr ⟨files, effects_Load_main env s m files hs h2 hg hm⟩)
    · exact Or.inl ⟨_, effects_Load_status env s ⟨code, body⟩ hs h2 hg hc⟩

/-- The single fetch of a `Load` whose location is a content hash. -/
theorem load_hash_fetch_url (env : Env) (s : State)
    (hs : (readSizes env s).err = none) (hh : IsContentHash (locationOf env)) :
    fetched (effects env ⟨.Load⟩ s) =
      ["https://" ++ env.SrcHost ++ "/" ++ locationOf env ++ ".json"] := by
  have h2 := (MatchString_sha_iff _).2 hh
  rcases effects_Load_hash_cases env s hs h2 with ⟨e, h⟩ | ⟨e, h⟩ | ⟨f, h⟩ <;>
    simp [h, fetched, shareURL]

/-- Every `Load` whose read of `split-sizes` succeeds dispatches `ChangeSplit`
with the resolved sizes first, and no other `ChangeSplit`. -/
theorem emitted_Load_head (env : Env) (s : State) (hs : (readSizes env s).err = none) :
    ∃ rest, emitted (effects env ⟨.Load⟩ s) = .ChangeSplit (resolvedSizes env s) :: rest ∧
      ∀ x, Action.ChangeSplit x ∉ rest := by
  by_cases h1 : locationOf env = ""
  · rcases effects_Load_local_cases env s hs h1 with ⟨e, h⟩ | h | ⟨e, h⟩ | ⟨f, c, h⟩ <;>
      simp [h, emitted]
  · by_cases h2 : shaRegex.MatchString (locationOf env) = true
    · rcases effects_Load_hash_cases env s hs h2 with ⟨e, h⟩ | ⟨e, h⟩ | ⟨f, h⟩ <;>
        simp [h, emitted]
    · rw [Bool.not_eq_true] at h2
      simp [effects_Load_package env s hs h1 h2, emitted]

/-- A successful save leaves the value under its key. -/
theorem Save_lookup (env : Env) (key : String) (v : Value) (s : State)
    (h : (Save env key v s).1 = none) : (Save env key v s).2.items.lookup key = some v := by
  unfold Save at h ⊢
  cases he : env.saveErr key v with
  | some e => simp [he] at h
  | none => simp [List.lookup]

/-- Trace of `AddFile` and `DeleteFile`, by the outcome of the two saves. -/
theorem effects_AddDelete (env : Env) (s : State) (a : Action)
    (ha : a = .AddFile ∨ a = .DeleteFile) :
    effects env ⟨a⟩ s =
      [.wait, .editorFiles, .save "files" (.files (Wait env ⟨a⟩ s).editor.files)] ++
      match env.saveErr "files" (.files (Wait env ⟨a⟩ s).editor.files) with
      | some err => [.fail err]
      | none =>
        [.editorCurrent, .save "current-file" (.text (Wait env ⟨a⟩ s).editor.current)] ++
        match env.saveErr "current-file" (.text (Wait env ⟨a⟩ s).editor.current) with
        | some err => [.fail err]
        | none => [] := by
  have hw : (Wait env ⟨a⟩ s).log = s.log ++ [.wait] := by
    unfold Wait
    simp only [State.record]
    split <;> rfl
  rcases ha with rfl | rfl
  · simp only [effects, Handle, saveFiles, saveCurrentFile, EditorFiles, EditorCurrent, Save]
    cases h1 : env.saveErr "files" (.files (Wait env ⟨.AddFile⟩ s).editor.files) with
    | some e => simp [h1, Fail, hw, State.record]
    | none =>
      cases h2 : env.saveErr "current-file" (.text (Wait env ⟨.AddFile⟩ s).editor.current) with
      | some e => simp [h1, h2, Fail, hw, State.record]
      | none => simp [h1, h2, hw, State.record]
  · simp only [effects, Handle, saveFiles, saveCurrentFile, EditorFiles, EditorCurrent, Save]
    cases h1 : env.saveErr "files" (.files (Wait env ⟨.DeleteFile⟩ s).editor.files) with
    | some e => simp [h1, Fail, hw, State.record]
    | none =>
      cases h2 : env.saveErr "current-file"
          (.text (Wait env ⟨.DeleteFile⟩ s).editor.current) with
      | some e => simp [h1, h2, Fail, hw, State.record]
      | none => simp [h1, h2, hw, State.record]

/-- The outcome of `saveFiles` is the store's answer for the editor's files. -/
theorem saveFiles_err (env : Env) (s : State) :
    (saveFiles env s).1 = env.saveErr "files" (.files s.editor.files) := by
  simp only [saveFiles, EditorFiles, Save]
  cases env.saveErr "files" (.files s.editor.files) <;> rfl

/-- The outcome of `saveCurrentFile` is the store's answer for the editor's
current file. -/
theorem saveCurrentFile_err (env : Env) (s : State) :
    (saveCurrentFile env s).1 = env.saveErr "current-file" (.text s.editor.current) := by
  simp only [saveCurrentFile, EditorCurrent, Save]
  cases env.saveErr "current-file" (.text s.editor.current) <;> rfl

/-- Waiting records one effect. -/
theorem Wait_log (env : Env) (payload : Payload) (s : State) :
    (Wait env payload s).log = s.log ++ [.wait] := by
  unfold Wait
  simp only [State.record]
  split <;> rfl

/-- Waiting leaves the store as it was. -/
theorem Wait_items (env : Env) (payload : Payload) (s : State) :
    (Wait env payload s).items = s.items := by
  unfold Wait
  simp only [State.record]
  split <;> rfl

/-- After waiting, the editor store has handled the payload. -/
theorem Wait_editorDone (env : Env) (payload : Payload) (s : State) :
    (Wait env payload s).editorDone = true := by
  unfold Wait
  simp only [State.record]
  split
  · assumption
  · rfl

/-- The editor store after waiting: as it was if it had already handled the
payload, else after handling it. -/
theorem Wait_editor (env : Env) (payload : Payload) (s : State) :
    (Wait env payload s).editor =
      if s.editorDone then s.editor else env.editorHandle payload s.editor := by
  unfold Wait
  simp only [State.record]
  split <;> rfl

/-- Dropping the entries of a key leaves what is stored under every other key. -/
theorem lookup_filter_ne (items : List (String × Value)) (key k : String) (h : k ≠ key) :
    (items.filter (fun kv => kv.1 != key)).lookup k = items.lookup k := by
  induction items with
  | nil => rfl
  | cons kv rest ih =>
    obtain ⟨k1, v1⟩ := kv
    by_cases h1 : k1 = key
    · subst h1
      have hk1 : (k == k1) = false := by simpa using h
      simp [List.filter_cons, List.lookup_cons, hk1, ih]
    · have hne : (k1 != key) = true := by simpa using h1
      simp only [List.filter_cons, hne, if_true, List.lookup_cons, ih]

/-- Saving under a key leaves what is stored under every other key. -/
theorem lookup_insert_ne (items : List (String × Value)) (key k : String) (v : Value)
    (h : k ≠ key) :
    ((key, v) :: items.filter (fun kv => kv.1 != key)).lookup k = items.lookup k := by
  have hk : (k == key) = false := by simpa using h
  rw [List.lookup_cons, hk]
  exact lookup_filter_ne items key k h

/-- A call of `Save` leaves what is stored under every other key. -/
theorem Save_lookup_ne (env : Env) (key k : String) (v : Value) (s : State) (h : k ≠ key) :
    (Save env key v s).2.items.lookup k = s.items.lookup k := by
  unfold Save
  cases env.saveErr key v with
  | some e => rfl
  | none => exact lookup_insert_ne s.items key k v h

/-- A failed `Save` leaves the store as it was. -/
theorem Save_items_of_error (env : Env) (key : String) (v : Value) (s : State) (err : Error)
    (h : env.saveErr key v = some err) : (Save env key v s).2.items = s.items := by
  unfold Save
  rw [h]
  rfl

/-- Trace of `UserChangedSplit`. -/
theorem effects_UserChangedSplit (env : Env) (s : State) (sz : List Float64) :
    effects env ⟨.UserChangedSplit sz⟩ s =
      .save "split-sizes" (.sizes sz) ::
        match env.saveErr "split-sizes" (.sizes sz) with
        | some err => [.fail err]
        | none => [] := by
  simp only [effects, Handle, Save]
  cases h1 : env.saveErr "split-sizes" (.sizes sz) <;> simp [Fail, State.record]

/-- Trace of `UserChangedText`. -/
theorem effects_UserChangedText (env : Env) (s : State) :
    effects env ⟨.UserChangedText⟩ s =
      [.wait, .editorFiles,
       .save "files" (.files (Wait env ⟨.UserChangedText⟩ s).editor.files)] ++
      match env.saveErr "files" (.files (Wait env ⟨.UserChangedText⟩ s).editor.files) with
      | some err => [.fail err]
      | none => [] := by
  have hw := Wait_log env ⟨.UserChangedText⟩ s
  simp only [effects, Handle, saveFiles, EditorFiles, Save]
  cases h1 : env.saveErr "files" (.files (Wait env ⟨.UserChangedText⟩ s).editor.files) <;>
    simp [h1, Fail, hw, State.record]

/-- Trace of `UserChangedFile`. -/
theorem effects_UserChangedFile (env : Env) (s : State) :
    effects env ⟨.UserChangedFile⟩ s =
      [.wait, .editorCurrent,
       .save "current-file" (.text (Wait env ⟨.UserChangedFile⟩ s).editor.current)] ++
      match env.saveErr "current-file"
          (.text (Wait env ⟨.UserChangedFile⟩ s).editor.current) with
      | some err => [.fail err]
      | none => [] := by
  have hw := Wait_log env ⟨.UserChangedFile⟩ s
  simp only [effects, Handle, saveCurrentFile, EditorCurrent, Save]
  cases h1 : env.saveErr "current-file"
      (.text (Wait env ⟨.UserChangedFile⟩ s).editor.current) <;>
    simp [h1, Fail, hw, State.record]

/-- An action that the type switch does not name has no effect. -/
theorem Handle_unmatched (env : Env) (s : State) (a : Action)
    (h1 : a ≠ .Load) (h2 : ∀ sz, a ≠ .UserChangedSplit sz) (h3 : a.isFileEvent = false) :
    Handle env ⟨a⟩ s = (true, s) := by
  cases a <;> first
    | rfl
    | exact absurd rfl h1
    | exact absurd rfl (h2 _)
    | exact absurd h3 (by decide)

/-- The store after `Load` is the store before it, on every path. -/
theorem Handle_Load_items (env : Env) (s : State) :
    (Handle env ⟨.Load⟩ s).2.items = s.items := by
  simp only [Handle, Find, Dispatch, Fail, httpGet, Decode]
  repeat' split
  all_goals rfl

/-- Every `Load` whose read of `split-sizes` succeeds starts with that read
followed by the dispatch of `ChangeSplit` with the resolved sizes; no other
`ChangeSplit` follows. -/
theorem effects_Load_start (env : Env) (s : State) (hs : (readSizes env s).err = none) :
    ∃ rest, effects env ⟨.Load⟩ s =
        .find "split-sizes" :: .dispatch (.ChangeSplit (resolvedSizes env s)) :: rest ∧
      ∀ x, Effect.dispatch (.ChangeSplit x) ∉ rest := by
  by_cases h1 : locationOf env = ""
  · rcases effects_Load_local_cases env s hs h1 with ⟨e, h⟩ | h | ⟨e, h⟩ | ⟨f, c, h⟩ <;>
      simp [h]
  · by_cases h2 : shaRegex.MatchString (locationOf env) = true
    · rcases effects_Load_hash_cases env s hs h2 with ⟨e, h⟩ | ⟨e, h⟩ | ⟨f, h⟩ <;>
        simp [h]
    · rw [Bool.not_eq_true] at h2
      simp [effects_Load_package env s hs h1 h2]

/-- An action that the type switch does not name leaves no trace. -/
theorem effects_unmatched (env : Env) (s : State) (a : Action)
    (h1 : a ≠ .Load) (h2 : ∀ sz, a ≠ .UserChangedSplit sz) (h3 : a.isFileEvent = false) :
    effects env ⟨a⟩ s = [] := by
  simp [effects, Handle_unmatched env s a h1 h2 h3]

theorem findError_sizes (env : Env) (s : State) :
    findError env s.items "split-sizes" = (readSizes env s).err := by
  simp [findError, readSizes, Find]

theorem findError_files (env : Env) (s : State) :
    findError env s.items "files" = (readFiles env s).err := by
  simp [findError, readFiles, Find]

theorem findError_current (env : Env) (s : State) :
    findError env s.items "current-file" = (readCurrent env s).err := by
  simp [findError, readCurrent, Find]

/-- What `saveFiles` leaves under every key but `files`. -/
theorem saveFiles_lookup_ne (env : Env) (s : State) (k : String) (h : k ≠ "files") :
    (saveFiles env s).2.items.lookup k = s.items.lookup k := by
  simp only [saveFiles, EditorFiles]
  rw [Save_lookup_ne env "files" k _ _ h]
  rfl

/-- What `saveCurrentFile` leaves under every key but `current-file`. -/
theorem saveCurrentFile_lookup_ne (env : Env) (s : State) (k : String)
    (h : k ≠ "current-file") :
    (saveCurrentFile env s).2.items.lookup k = s.items.lookup k := by
  simp only [saveCurrentFile, EditorCurrent]
  rw [Save_lookup_ne env "current-file" k _ _ h]
  rfl

/-- The store after `UserChangedSplit`, under every key but `split-sizes`. -/
theorem Handle_UserChangedSplit_lookup (env : Env) (s : State) (sz : List Float64)
    (k : String) (h : k ≠ "split-sizes") :
    (Handle env ⟨.UserChangedSplit sz⟩ s).2.items.lookup k = s.items.lookup k := by
  have h1 := Save_lookup_ne env "split-sizes" k (.sizes sz) s h
  simp only [Handle]
  rcases hS : Save env "split-sizes" (.sizes sz) s with ⟨_ | e, s1⟩ <;>
    (rw [hS] at h1; exact h1)

/-- The store after `UserChangedText`, under every key but `files`. -/
theorem Handle_UserChangedText_lookup (env : Env) (s : State) (k : String)
    (h : k ≠ "files") :
    (Handle env ⟨.UserChangedText⟩ s).2.items.lookup k = s.items.lookup k := by
  have h1 := saveFiles_lookup_ne env (Wait env ⟨.UserChangedText⟩ s) k h
  rw [Wait_items] at h1
  simp only [Handle]
  rcases hS : saveFiles env (Wait env ⟨.UserChangedText⟩ s) with ⟨_ | e, s1⟩ <;>
    (rw [hS] at h1; exact h1)

/-- The store after `UserChangedFile`, under every key but `current-file`. -/
theorem Handle_UserChangedFile_lookup (env : Env) (s : State) (k : String)
    (h : k ≠ "current-file") :
    (Handle env ⟨.UserChangedFile⟩ s).2.items.lookup k = s.items.lookup k := by
  have h1 := saveCurrentFile_lookup_ne env (Wait env ⟨.UserChangedFile⟩ s) k h
  rw [Wait_items] at h1
  simp only [Handle]
  rcases hS : saveCurrentFile env (Wait env ⟨.UserChangedFile⟩ s) with ⟨_ | e, s1⟩ <;>
    (rw [hS] at h1; exact h1)

/-- The store after `AddFile` or `DeleteFile`, under every key but `files` and
`current-file`. -/
theorem Handle_AddDelete_lookup (env : Env) (s : State) (a : Action)
    (ha : a = .AddFile ∨ a = .DeleteFile) (k : String)
    (h1 : k ≠ "files") (h2 : k ≠ "current-file") :
    (Handle env ⟨a⟩ s).2.items.lookup k = s.items.lookup k := by
  have e1 := saveFiles_lookup_ne env (Wait env ⟨a⟩ s) k h1
  rw [Wait_items] at e1
  have e2 := saveCurrentFile_lookup_ne env (saveFiles env (Wait env ⟨a⟩ s)).2 k h2
  rw [e1] at e2
  rcases ha with rfl | rfl
  · simp only [Handle]
    rcases hS : saveFiles env (Wait env ⟨.AddFile⟩ s) with ⟨_ | e, s1⟩
    · rw [hS] at e2
      dsimp only
      rcases hC : saveCurrentFile env s1 with ⟨_ | e, s2⟩ <;>
        (rw [hC] at e2; exact e2)
    · rw [hS] at e1
      exact e1
  · simp only [Handle]
    rcases hS : saveFiles env (Wait env ⟨.DeleteFile⟩ s) with ⟨_ | e, s1⟩
    · rw [hS] at e2
      dsimp only
      rcases hC : saveCurrentFile env s1 with ⟨_ | e, s2⟩ <;>
        (rw [hC] at e2; exact e2)
    · rw [hS] at e1
      exact e1

/-- The store after any of the four file events, under every key but `files`
and `current-file`. -/
theorem Handle_fileEvent_lookup (env : Env) (s : State) (a : Action)
    (ha : a.isFileEvent = true) (k : String) (h1 : k ≠ "files") (h2 : k ≠ "current-file") :
    (Handle env ⟨a⟩ s).2.items.lookup k = s.items.lookup k := by
  cases a with
  | UserChangedText => exact Handle_UserChangedText_lookup env s k h1
  | UserChangedFile => exact Handle_UserChangedFile_lookup env s k h2
  | AddFile => exact Handle_AddDelete_lookup env s _ (Or.inl rfl) k h1 h2
  | DeleteFile => exact Handle_AddDelete_lookup env s _ (Or.inr rfl) k h1 h2
  | _ => simp [Action.isFileEvent] at ha

/-- The possible traces of the four file events: the wait, then reads of the
editor store and saves of what was read, then at most a report. -/
theorem effects_fileEvent (env : Env) (s : State) (a : Action) (ha : a.isFileEvent = true) :
    ∃ rest, effects env ⟨a⟩ s = .wait :: rest ∧
      ∀ e ∈ rest, e = .editorFiles ∨ e = .editorCurrent ∨
        e = .save "files" (.files (Wait env ⟨a⟩ s).editor.files) ∨
        e = .save "current-file" (.text (Wait env ⟨a⟩ s).editor.current) ∨
        ∃ err, e = .fail err := by
  cases a with
  | UserChangedText =>
    rw [effects_UserChangedText]
    cases env.saveErr "files" (.files (Wait env ⟨.UserChangedText⟩ s).editor.files) <;>
      simp
  | UserChangedFile =>
    rw [effects_UserChangedFile]
    cases env.saveErr "current-file"
        (.text (Wait env ⟨.UserChangedFile⟩ s).editor.current) <;>
      simp
  | AddFile =>
    rw [effects_AddDelete env s .AddFile (Or.inl rfl)]
    cases env.saveErr "files" (.files (Wait env ⟨.AddFile⟩ s).editor.files) with
    | some e => simp
    | none =>
      cases env.saveErr "current-file" (.text (Wait env ⟨.AddFile⟩ s).editor.current) <;>
        simp
  | DeleteFile =>
    rw [effects_AddDelete env s .DeleteFile (Or.inr rfl)]
    cases env.saveErr "files" (.files (Wait env ⟨.DeleteFile⟩ s).editor.files) with
    | some e => simp
    | none =>
      cases env.saveErr "current-file" (.text (Wait env ⟨.DeleteFile⟩ s).editor.current) <;>
        simp
  | _ => simp [Action.isFileEvent] at ha

/-- A call of `Save` does not touch the editor store's progress. -/
theorem Save_editorDone (env : Env) (key : String) (v : Value) (s : State) :
    (Save env key v s).2.editorDone = s.editorDone := by
  unfold Save
  cases env.saveErr key v <;> rfl

theorem saveFiles_editorDone (env : Env) (s : State) :
    (saveFiles env s).2.editorDone = s.editorDone := by
  simp only [saveFiles, EditorFiles]
  rw [Save_editorDone]
  rfl

theorem saveCurrentFile_editorDone (env : Env) (s : State) :
    (saveCurrentFile env s).2.editorDone = s.editorDone := by
  simp only [saveCurrentFile, EditorCurrent]
  rw [Save_editorDone]
  rfl

/-- After any of the four file events the editor store has handled the payload. -/
theorem Handle_fileEvent_editorDone (env : Env) (s : State) (a : Action)
    (ha : a.isFileEvent = true) : (Handle env ⟨a⟩ s).2.editorDone = true := by
  have e1 := saveFiles_editorDone env (Wait env ⟨a⟩ s)
  rw [Wait_editorDone] at e1
  have e2 := saveCurrentFile_editorDone env (saveFiles env (Wait env ⟨a⟩ s)).2
  rw [e1] at e2
  have e3 := saveCurrentFile_editorDone env (Wait env ⟨a⟩ s)
  rw [Wait_editorDone] at e3
  cases a with
  | UserChangedText =>
    simp only [Handle]
    rcases hS : saveFiles env (Wait env ⟨.UserChangedText⟩ s) with ⟨_ | e, s1⟩ <;>
      (rw [hS] at e1; exact e1)
  | UserChangedFile =>
    simp only [Handle]
    rcases hS : saveCurrentFile env (Wait env ⟨.UserChangedFile⟩ s) with ⟨_ | e, s1⟩ <;>
      (rw [hS] at e3; exact e3)
  | AddFile =>
    simp only [Handle]
    rcases hS : saveFiles env (Wait env ⟨.AddFile⟩ s) with ⟨_ | e, s1⟩
    · rw [hS] at e2
      dsimp only
      rcases hC : saveCurrentFile env s1 with ⟨_ | e, s2⟩ <;>
        (rw [hC] at e2; exact e2)
    · rw [hS] at e1
      exact e1
  | DeleteFile =>
    simp only [Handle]
    rcases hS : saveFiles env (Wait env ⟨.DeleteFile⟩ s) with ⟨_ | e, s1⟩
    · rw [hS] at e2
      dsimp only
      rcases hC : saveCurrentFile env s1 with ⟨_ | e, s2⟩ <;>
        (rw [hC] at e2; exact e2)
    · rw [hS] at e1
      exact e1
  | _ => simp [Action.isFileEvent] at ha

/-! ## Session restore: the three strategies -/

/-- C1: for every `Load` whose read of `split-sizes` does not fail, the
strategy is fixed by the location alone: `files` is read iff the location is
empty, a fetch is made iff the location is a 40-character lowercase-hex string,
`GetStart` is dispatched iff the location is non-empty and not such a string;
no two strategies run together, and `LoadFiles` and `GetStart` are never both
dispatched. -/
theorem load_strategy_exclusive (env : Env) (s : State)
    (hs : (readSizes env s).err = none) :
    (ranLocal (effects env ⟨.Load⟩ s) = true ↔ locationOf env = "") ∧
    (ranHash (effects env ⟨.Load⟩ s) = true ↔
      locationOf env ≠ "" ∧ IsContentHash (locationOf env)) ∧
    (ranPackage (effects env ⟨.Load⟩ s) = true ↔
      locationOf env ≠ "" ∧ ¬ IsContentHash (locationOf env)) ∧
    ¬ (ranLocal (effects env ⟨.Load⟩ s) = true ∧ ranHash (effects env ⟨.Load⟩ s) = true) ∧
    ¬ (ranHash (effects env ⟨.Load⟩ s) = true ∧ ranPackage (effects env ⟨.Load⟩ s) = true) ∧
    ¬ (ranLocal (effects env ⟨.Load⟩ s) = true ∧ ranPackage (effects env ⟨.Load⟩ s) = true) ∧
    ¬ ((emitted (effects env ⟨.Load⟩ s)).any Action.isLoadFiles = true ∧
       (emitted (effects env ⟨.Load⟩ s)).any Action.isGetStart = true) := by
  by_cases h1 : locationOf env = ""
  · have hm : ¬ IsContentHash (locationOf env) := by rw [h1]; decide
    rcases effects_Load_local_cases env s hs h1 with ⟨e, h⟩ | h | ⟨e, h⟩ | ⟨f, c, h⟩ <;>
      simp [h, h1, ranLocal, ranHash, ranPackage, keysRead, fetched, emitted,
        Action.isLoadFiles, Action.isGetStart]
  · by_cases h2 : shaRegex.MatchString (locationOf env) = true
    · have hm : IsContentHash (locationOf env) := (MatchString_sha_iff _).1 h2
      rcases effects_Load_hash_cases env s hs h2 with ⟨e, h⟩ | ⟨e, h⟩ | ⟨f, h⟩ <;>
        simp [h, h1, hm, ranLocal, ranHash, ranPackage, keysRead, fetched, emitted,
          Action.isLoadFiles, Action.isGetStart]
    · have hm : ¬ IsContentHash (locationOf env) := fun h => h2 ((MatchString_sha_iff _).2 h)
      rw [Bool.not_eq_true] at h2
      simp [effects_Load_package env s hs h1 h2, h1, hm, ranLocal, ranHash, ranPackage,
        keysRead, fetched, emitted, Action.isLoadFiles, Action.isGetStart]

theorem load_strategy_exclusive_witness :
    (readSizes (sampleEnv "/") sampleState).err = none ∧
    (ranLocal (effects (sampleEnv "/") ⟨.Load⟩ sampleState) = true ↔
      locationOf (sampleEnv "/") = "") :=
  ⟨by decide, (load_strategy_exclusive (sampleEnv "/") sampleState (by decide)).1⟩

/-- C2: for every location of exactly 40 characters, each in `0-9` or `a-f`,
a `Load` whose read of `split-sizes` succeeds runs the hash strategy and no
other: exactly one GET, to `https://SrcHost/location.json`; the keys `files`
and `current-file` are not read; no `GetStart` is dispatched. -/
theorem load_hash_runs_fetch_only (env : Env) (s : State)
    (hs : (readSizes env s).err = none) (hh : IsContentHash (locationOf env)) :
    fetched (effects env ⟨.Load⟩ s) =
      ["https://" ++ env.SrcHost ++ "/" ++ locationOf env ++ ".json"] ∧
    "files" ∉ keysRead (effects env ⟨.Load⟩ s) ∧
    "current-file" ∉ keysRead (effects env ⟨.Load⟩ s) ∧
    ranHash (effects env ⟨.Load⟩ s) = true ∧
    ranLocal (effects env ⟨.Load⟩ s) = false ∧
    ranPackage (effects env ⟨.Load⟩ s) = false := by
  have h2 := (MatchString_sha_iff _).2 hh
  rcases effects_Load_hash_cases env s hs h2 with ⟨e, h⟩ | ⟨e, h⟩ | ⟨f, h⟩ <;>
    simp [h, ranLocal, ranHash, ranPackage, keysRead, fetched, emitted,
      Action.isGetStart, shareURL]

theorem load_hash_runs_fetch_only_witness :
    (readSizes (sampleEnv ("/" ++ sampleHash)) sampleState).err = none ∧
    IsContentHash (locationOf (sampleEnv ("/" ++ sampleHash))) ∧
    fetched (effects (sampleEnv ("/" ++ sampleHash)) ⟨.Load⟩ sampleState) =
      ["https://" ++ (sampleEnv ("/" ++ sampleHash)).SrcHost ++ "/" ++
        locationOf (sampleEnv ("/" ++ sampleHash)) ++ ".json"] :=
  ⟨by decide, by decide,
    (load_hash_runs_fetch_only (sampleEnv ("/" ++ sampleHash)) sampleState
      (by decide) (by decide)).1⟩

/-- C3: for every non-empty location that is not a content hash, a `Load`
whose read of `split-sizes` succeeds dispatches exactly one `GetStart`, whose
Path is the location without its trailing slash (the location itself when it
does not end in a slash); it dispatches no `LoadFiles`, makes no fetch and does
not read `files`. -/
theorem load_package_path_strategy (env : Env) (s : State)
    (hs : (readSizes env s).err = none) (h1 : locationOf env ≠ "")
    (h2 : ¬ IsContentHash (locationOf env)) :
    (emitted (effects env ⟨.Load⟩ s)).filter Action.isGetStart =
      [.GetStart (TrimSuffix (locationOf env) "/")] ∧
    (∀ p : String, locationOf env = p ++ "/" → TrimSuffix (locationOf env) "/" = p) ∧
    (¬ ("/".data <:+ (locationOf env).data) →
      TrimSuffix (locationOf env) "/" = locationOf env) ∧
    (emitted (effects env ⟨.Load⟩ s)).any Action.isLoadFiles = false ∧
    fetched (effects env ⟨.Load⟩ s) = [] ∧
    "files" ∉ keysRead (effects env ⟨.Load⟩ s) := by
  have hm : shaRegex.MatchString (locationOf env) = false := by
    rw [← Bool.not_eq_true]
    exact fun h => h2 ((MatchString_sha_iff _).1 h)
  refine ⟨?_, ?_, TrimSuffix_of_not_suffix _, ?_, ?_, ?_⟩
  · simp [effects_Load_package env s hs h1 hm, emitted, Action.isGetStart]
  · intro p hp
    rw [hp, TrimSuffix_append_slash]
  · simp [effects_Load_package env s hs h1 hm, emitted, Action.isLoadFiles]
  · simp [effects_Load_package env s hs h1 hm, fetched]
  · simp [effects_Load_package env s hs h1 hm, keysRead]

theorem load_package_path_strategy_witness :
    (readSizes (sampleEnv "/github.com/dave/img/") sampleState).err = none ∧
    locationOf (sampleEnv "/github.com/dave/img/") ≠ "" ∧
    ¬ IsContentHash (locationOf (sampleEnv "/github.com/dave/img/")) ∧
    (emitted (effects (sampleEnv "/github.com/dave/img/") ⟨.Load⟩ sampleState)).filter
        Action.isGetStart =
      [.GetStart (TrimSuffix (locationOf (sampleEnv "/github.com/dave/img/")) "/")] ∧
    TrimSuffix (locationOf (sampleEnv "/github.com/dave/img/")) "/" = "github.com/dave/img" :=
  ⟨by decide, by decide, by decide,
    (load_package_path_strategy (sampleEnv "/github.com/dave/img/") sampleState
      (by decide) (by decide) (by decide)).1,
    by decide⟩

/-- C4 (as stated, refuted): with the pathname `/` + h + `/` for a 40-character
lowercase-hex h, the `Load` makes no fetch and dispatches `GetStart` with h as a
package path; with the pathname `//` the location is `/`, not empty, and `files`
is not read. -/
theorem load_trailing_slash_counterexample :
    IsContentHash sampleHash ∧
    (readSizes (sampleEnv ("/" ++ sampleHash ++ "/")) sampleState).err = none ∧
    ranHash (effects (sampleEnv ("/" ++ sampleHash ++ "/")) ⟨.Load⟩ sampleState) = false ∧
    emitted (effects (sampleEnv ("/" ++ sampleHash ++ "/")) ⟨.Load⟩ sampleState) =
      [.ChangeSplit [50, 50], .GetStart sampleHash] ∧
    locationOf (sampleEnv "//") = "/" ∧
    ranLocal (effects (sampleEnv "//") ⟨.Load⟩ sampleState) = false ∧
    emitted (effects (sampleEnv "//") ⟨.Load⟩ sampleState) =
      [.ChangeSplit [50, 50], .GetStart ""] := by
  decide

/-- C4 (amended): the location that `Load` classifies is the pathname with
only its leading slash stripped; the trailing slash is stripped after
classification, in the package-path strategy. For every 40-character
lowercase-hex h: the pathname `/` + h runs the hash strategy on h; the pathname
`/` + h + `/` is classified as the package path h + `/` and dispatches
`GetStart` with Path h, without any fetch; the pathname `//` is classified as
the package path `/` and dispatches `GetStart` with the empty Path, without
reading `files`. -/
theorem load_classifies_before_trailing_slash (env : Env) (s : State) (h : String)
    (hs : (readSizes env s).err = none) (hh : IsContentHash h) :
    (locationOf { env with Pathname := "/" ++ h } = h ∧
      fetched (effects { env with Pathname := "/" ++ h } ⟨.Load⟩ s) =
        ["https://" ++ env.SrcHost ++ "/" ++ h ++ ".json"]) ∧
    (locationOf { env with Pathname := "/" ++ h ++ "/" } = h ++ "/" ∧
      effects { env with Pathname := "/" ++ h ++ "/" } ⟨.Load⟩ s =
        [.find "split-sizes", .dispatch (.ChangeSplit (resolvedSizes env s)),
         .dispatch (.GetStart h)]) ∧
    (locationOf { env with Pathname := "//" } = "/" ∧
      effects { env with Pathname := "//" } ⟨.Load⟩ s =
        [.find "split-sizes", .dispatch (.ChangeSplit (resolvedSizes env s)),
         .dispatch (.GetStart "")]) := by
  have l1 : locationOf { env with Pathname := "/" ++ h } = h := TrimPrefix_slash_append h
  have l2 : locationOf { env with Pathname := "/" ++ h ++ "/" } = h ++ "/" := by
    show TrimPrefix ("/" ++ h ++ "/") "/" = h ++ "/"
    rw [String.append_assoc, TrimPrefix_slash_append]
  have l3 : locationOf { env with Pathname := "//" } = "/" := by
    show TrimPrefix "//" "/" = "/"
    decide
  refine ⟨⟨l1, ?_⟩, ⟨l2, ?_⟩, ⟨l3, ?_⟩⟩
  · have hh1 : IsContentHash (locationOf { env with Pathname := "/" ++ h }) := by
      rw [l1]; exact hh
    have := (load_hash_fetch_url { env with Pathname := "/" ++ h } s hs hh1)
    rw [this, l1]
  · have hne : locationOf { env with Pathname := "/" ++ h ++ "/" } ≠ "" := by
      rw [l2]
      intro h0
      have := congrArg String.length h0
      rw [String.length_append] at this
      have h1 : "/".length = 1 := by decide
      have h2 : "".length = 0 := by decide
      omega
    have hm : shaRegex.MatchString (locationOf { env with Pathname := "/" ++ h ++ "/" })
        = false := by
      rw [l2]
      simp [Regexp.MatchString, shaRegex, String.data_append, hh.1]
    have := effects_Load_package { env with Pathname := "/" ++ h ++ "/" } s hs hne hm
    rw [this, l2, TrimSuffix_append_slash]
    rfl
  · have hne : locationOf { env with Pathname := "//" } ≠ "" := by rw [l3]; decide
    have hm : shaRegex.MatchString (locationOf { env with Pathname := "//" }) = false := by
      rw [l3]; decide
    have := effects_Load_package { env with Pathname := "//" } s hs hne hm
    rw [this, l3]
    rfl

theorem load_classifies_before_trailing_slash_witness :
    (readSizes (sampleEnv "/") sampleState).err = none ∧ IsContentHash sampleHash ∧
    effects { sampleEnv "/" with Pathname := "/" ++ sampleHash ++ "/" } ⟨.Load⟩ sampleState =
      [.find "split-sizes", .dispatch (.ChangeSplit (resolvedSizes (sampleEnv "/") sampleState)),
       .dispatch (.GetStart sampleHash)] :=
  ⟨by decide, by decide,
    (load_classifies_before_trailing_slash (sampleEnv "/") sampleState sampleHash
      (by decide) (by decide)).2.1.2⟩

/-! ## Session restore from local storage -/

/-- C5: with an empty location, a successful read of `split-sizes` and a read
of `files` that reports neither an error nor a value, `Load` dispatches
`LoadFiles` with the compiled-in default file set (the files `main.go` and
`rand.go`) and the current file `main.go`, and does not read `current-file`. -/
theorem load_defaults_when_no_files (env : Env) (s : State)
    (hs : (readSizes env s).err = none) (h1 : locationOf env = "")
    (hf : (readFiles env s).err = none) (hn : (readFiles env s).found = false) :
    emitted (effects env ⟨.Load⟩ s) =
      [.ChangeSplit (resolvedSizes env s), .LoadFiles defaultFiles "main.go"] ∧
    defaultFiles.map Prod.fst = ["main.go", "rand.go"] ∧
    "current-file" ∉ keysRead (effects env ⟨.Load⟩ s) := by
  rw [effects_Load_default env s hs h1 hf hn]
  refine ⟨?_, by decide, ?_⟩
  · simp [emitted, defaultFile]
  · simp [keysRead]

theorem load_defaults_when_no_files_witness :
    (readSizes (sampleEnv "/") sampleState).err = none ∧
    locationOf (sampleEnv "/") = "" ∧
    (readFiles (sampleEnv "/") sampleState).err = none ∧
    (readFiles (sampleEnv "/") sampleState).found = false ∧
    emitted (effects (sampleEnv "/") ⟨.Load⟩ sampleState) =
      [.ChangeSplit (resolvedSizes (sampleEnv "/") sampleState),
       .LoadFiles defaultFiles "main.go"] :=
  ⟨by decide, by decide, by decide, by decide,
    (load_defaults_when_no_files (sampleEnv "/") sampleState
      (by decide) (by decide) (by decide) (by decide)).1⟩

/-- C6: with an empty location, a file set F stored under `files`, a name c
stored under `current-file` and every storage read succeeding, `Load`
dispatches `LoadFiles` with exactly F and c, for every F (the empty one
included) and every c: no default is substituted. -/
theorem load_stored_files (env : Env) (s : State) (F : FileSet) (c : String)
    (hs : (readSizes env s).err = none) (h1 : locationOf env = "")
    (he : ∀ key, env.findErr key = none)
    (hF : s.items.lookup "files" = some (.files F))
    (hc : s.items.lookup "current-file" = some (.text c)) :
    emitted (effects env ⟨.Load⟩ s) = [.ChangeSplit (resolvedSizes env s), .LoadFiles F c] ∧
    failures (effects env ⟨.Load⟩ s) = [] := by
  have rf : readFiles env s = ⟨F, true, none⟩ := by
    simp [readFiles, Find, readItem, he, hF, Value.toFiles]
  have rc : readCurrent env s = ⟨c, true, none⟩ := by
    simp [readCurrent, Find, readItem, he, hc, Value.toText]
  have h := effects_Load_stored env s hs h1 (by rw [rf]) (by rw [rf]) (by rw [rc])
  rw [h, rf, rc]
  simp [emitted, failures]

theorem load_stored_files_witness :
    (readSizes (sampleEnv "/") storedState).err = none ∧
    locationOf (sampleEnv "/") = "" ∧
    (∀ key, (sampleEnv "/").findErr key = none) ∧
    storedState.items.lookup "files" = some (.files [("a.go", "x")]) ∧
    storedState.items.lookup "current-file" = some (.text "a.go") ∧
    emitted (effects (sampleEnv "/") ⟨.Load⟩ storedState) =
      [.ChangeSplit (resolvedSizes (sampleEnv "/") storedState),
       .LoadFiles [("a.go", "x")] "a.go"] :=
  ⟨by decide, by decide, fun _ => rfl, by decide, by decide,
    (load_stored_files (sampleEnv "/") storedState [("a.go", "x")] "a.go"
      (by decide) (by decide) (fun _ => rfl) (by decide) (by decide)).1⟩

/-! ## Persistence -/

/-- C7: split-sizes round trip. After `UserChangedSplit` with sizes sz has
been handled with a successful save, a `Load` on the resulting storage (whose
read of `split-sizes` is not refused by the store) dispatches `ChangeSplit`
with sz first and no other `ChangeSplit`, whatever the location and the rest of
the environment are. -/
theorem split_sizes_round_trip (env env2 : Env) (s s2 : State) (sz : List Float64)
    (hsave : (Save env "split-sizes" (.sizes sz) s).1 = none)
    (hstore : s2.items = (Handle env ⟨.UserChangedSplit sz⟩ s).2.items)
    (hread : env2.findErr "split-sizes" = none) :
    (emitted (effects env2 ⟨.Load⟩ s2)).head? = some (.ChangeSplit sz) ∧
    ∀ x, Action.ChangeSplit x ∈ emitted (effects env2 ⟨.Load⟩ s2) → x = sz := by
  have hl := Save_lookup env "split-sizes" (.sizes sz) s hsave
  have hitems : s2.items.lookup "split-sizes" = some (.sizes sz) := by
    rw [hstore]
    simp only [Handle]
    rcases hS : Save env "split-sizes" (.sizes sz) s with ⟨_ | e, s1⟩
    · rw [hS] at hl
      exact hl
    · rw [hS] at hsave
      exact absurd hsave (by simp)
  have hr : readSizes env2 s2 = ⟨sz, true, none⟩ := by
    simp [readSizes, Find, readItem, hread, hitems, Value.toSizes]
  have hs : (readSizes env2 s2).err = none := by rw [hr]
  have hres : resolvedSizes env2 s2 = sz := by simp [resolvedSizes, hr]
  obtain ⟨rest, h1, h2⟩ := emitted_Load_head env2 s2 hs
  rw [h1, hres]
  refine ⟨rfl, ?_⟩
  intro x hx
  rcases List.mem_cons.1 hx with h | h
  · exact Action.ChangeSplit.inj h
  · exact absurd h (h2 x)

theorem split_sizes_round_trip_witness :
    (Save (sampleEnv "/") "split-sizes" (.sizes [30, 70]) sampleState).1 = none ∧
    (sampleEnv "/x").findErr "split-sizes" = none ∧
    (emitted (effects (sampleEnv "/x") ⟨.Load⟩
      (Handle (sampleEnv "/") ⟨.UserChangedSplit [30, 70]⟩ sampleState).2)).head? =
      some (.ChangeSplit [30, 70]) :=
  ⟨by decide, by decide,
    (split_sizes_round_trip (sampleEnv "/") (sampleEnv "/x") sampleState
      (Handle (sampleEnv "/") ⟨.UserChangedSplit [30, 70]⟩ sampleState).2 [30, 70]
      (by decide) rfl (by decide)).1⟩

/-- C8: for `AddFile` and for `DeleteFile`, the storage writes are, in order,
the editor's file set under `files` and then the editor's current file name
under `current-file`: exactly these two when the save of `files` succeeds, and
the save of `files` alone when it fails. -/
theorem add_delete_file_writes (env : Env) (s : State) (a : Action)
    (ha : a = .AddFile ∨ a = .DeleteFile) :
    ((saveFiles env (Wait env ⟨a⟩ s)).1 = none →
      saves (effects env ⟨a⟩ s) =
        [("files", .files (Wait env ⟨a⟩ s).editor.files),
         ("current-file", .text (Wait env ⟨a⟩ s).editor.current)]) ∧
    ((saveFiles env (Wait env ⟨a⟩ s)).1 ≠ none →
      saves (effects env ⟨a⟩ s) = [("files", .files (Wait env ⟨a⟩ s).editor.files)]) := by
  rw [saveFiles_err, effects_AddDelete env s a ha]
  cases h1 : env.saveErr "files" (.files (Wait env ⟨a⟩ s).editor.files) with
  | some e => simp [saves]
  | none =>
    cases h2 : env.saveErr "current-file" (.text (Wait env ⟨a⟩ s).editor.current) <;>
      simp [saves]

theorem add_delete_file_writes_witness :
    ((Action.AddFile = .AddFile ∨ Action.AddFile = .DeleteFile) ∧
      (saveFiles (sampleEnv "/") (Wait (sampleEnv "/") ⟨.AddFile⟩ sampleState)).1 = none ∧
      saves (effects (sampleEnv "/") ⟨.AddFile⟩ sampleState) =
        [("files", .files (Wait (sampleEnv "/") ⟨.AddFile⟩ sampleState).editor.files),
         ("current-file",
          .text (Wait (sampleEnv "/") ⟨.AddFile⟩ sampleState).editor.current)]) ∧
    ((Action.DeleteFile = .AddFile ∨ Action.DeleteFile = .DeleteFile) ∧
      (saveFiles (fullEnv "files") (Wait (fullEnv "files") ⟨.DeleteFile⟩ sampleState)).1
        ≠ none ∧
      saves (effects (fullEnv "files") ⟨.DeleteFile⟩ sampleState) =
        [("files", .files (Wait (fullEnv "files") ⟨.DeleteFile⟩ sampleState).editor.files)]) :=
  ⟨⟨by decide, by decide,
    (add_delete_file_writes (sampleEnv "/") sampleState .AddFile (by decide)).1 (by decide)⟩,
   ⟨by decide, by decide,
    (add_delete_file_writes (fullEnv "files") sampleState .DeleteFile (by decide)).2
      (by decide)⟩⟩

/-! ## Failures of the hash strategy -/

/-- C9: for every hash location and every response whose status code n is
not 200, `Load` reports exactly one failure, `error n loading source` with n in
decimal, dispatches no `LoadFiles` and does not decode the body. -/
theorem load_non_200_fails (env : Env) (s : State) (resp : Response)
    (hs : (readSizes env s).err = none) (hh : IsContentHash (locationOf env))
    (hg : env.Get ("https://" ++ env.SrcHost ++ "/" ++ locationOf env ++ ".json") = .ok resp)
    (hn : resp.StatusCode ≠ 200) :
    failures (effects env ⟨.Load⟩ s) =
      ["error " ++ toString resp.StatusCode ++ " loading source"] ∧
    (emitted (effects env ⟨.Load⟩ s)).any Action.isLoadFiles = false ∧
    Effect.decode ∉ effects env ⟨.Load⟩ s := by
  have h2 := (MatchString_sha_iff _).2 hh
  rw [effects_Load_status env s resp hs h2 hg hn]
  simp [failures, emitted, Action.isLoadFiles]

theorem load_non_200_fails_witness :
    (readSizes (fetchEnv ("/" ++ sampleHash) (.ok ⟨404, .invalid "not json"⟩))
      sampleState).err = none ∧
    IsContentHash (locationOf (fetchEnv ("/" ++ sampleHash) (.ok ⟨404, .invalid "not json"⟩))) ∧
    failures (effects (fetchEnv ("/" ++ sampleHash) (.ok ⟨404, .invalid "not json"⟩))
      ⟨.Load⟩ sampleState) = ["error 404 loading source"] :=
  ⟨by decide, by decide,
    (load_non_200_fails (fetchEnv ("/" ++ sampleHash) (.ok ⟨404, .invalid "not json"⟩))
      sampleState ⟨404, .invalid "not json"⟩ (by decide) (by decide) rfl (by decide)).1⟩

/-- C10: for every hash location and every blob fetched with status 200 and
decoded whose Source has no `main` key, whatever its other packages, `Load`
reports the failure `package main not found in source` (and no other) and
dispatches no `LoadFiles`. -/
theorem load_missing_main_fails (env : Env) (s : State) (m : Share)
    (hs : (readSizes env s).err = none) (hh : IsContentHash (locationOf env))
    (hg : env.Get ("https://" ++ env.SrcHost ++ "/" ++ locationOf env ++ ".json") =
      .ok ⟨200, .json m⟩)
    (hm : ∀ kv ∈ m.Source, kv.1 ≠ "main") :
    failures (effects env ⟨.Load⟩ s) = ["package main not found in source"] ∧
    (emitted (effects env ⟨.Load⟩ s)).any Action.isLoadFiles = false := by
  have h2 := (MatchString_sha_iff _).2 hh
  have hl : m.Source.lookup "main" = none := by
    rw [List.lookup_eq_none_iff]
    intro kv hkv
    simpa using fun h => hm kv hkv h.symm
  rw [effects_Load_no_main env s m hs h2 hg hl]
  simp [failures, emitted, Action.isLoadFiles]

theorem load_missing_main_fails_witness :
    (readSizes (fetchEnv ("/" ++ sampleHash)
      (.ok ⟨200, .json ⟨[("lib", [("lib.go", "package lib")])]⟩⟩)) sampleState).err = none ∧
    IsContentHash (locationOf (fetchEnv ("/" ++ sampleHash)
      (.ok ⟨200, .json ⟨[("lib", [("lib.go", "package lib")])]⟩⟩))) ∧
    failures (effects (fetchEnv ("/" ++ sampleHash)
      (.ok ⟨200, .json ⟨[("lib", [("lib.go", "package lib")])]⟩⟩)) ⟨.Load⟩ sampleState) =
      ["package main not found in source"] :=
  ⟨by decide, by decide,
    (load_missing_main_fails (fetchEnv ("/" ++ sampleHash)
      (.ok ⟨200, .json ⟨[("lib", [("lib.go", "package lib")])]⟩⟩)) sampleState
      ⟨[("lib", [("lib.go", "package lib")])]⟩ (by decide) (by decide) rfl (by decide)).1⟩

/-! ## The hash strategy on success -/

/-- C11: for every hash location, when the fetch answers 200 and the body
decodes to a blob whose `main` entry is M, `Load` dispatches `LoadFiles` with
Files = M and the empty Current, and reports no failure; the dispatched
action is fixed by M alone, whatever the other entries of the blob are. -/
theorem load_hash_emits_main (env : Env) (s : State) (m : Share) (M : FileSet)
    (hs : (readSizes env s).err = none) (hh : IsContentHash (locationOf env))
    (hg : env.Get ("https://" ++ env.SrcHost ++ "/" ++ locationOf env ++ ".json") =
      .ok ⟨200, .json m⟩)
    (hm : m.Source.lookup "main" = some M) :
    emitted (effects env ⟨.Load⟩ s) =
      [.ChangeSplit (resolvedSizes env s), .LoadFiles M ""] ∧
    failures (effects env ⟨.Load⟩ s) = [] := by
  have h2 := (MatchString_sha_iff _).2 hh
  rw [effects_Load_main env s m M hs h2 hg hm]
  simp [emitted, failures]

theorem load_hash_emits_main_witness :
    (readSizes (fetchEnv ("/" ++ sampleHash)
      (.ok ⟨200, .json ⟨[("lib", [("lib.go", "package lib")]),
        ("main", [("a.go", "package main")])]⟩⟩)) sampleState).err = none ∧
    IsContentHash (locationOf (fetchEnv ("/" ++ sampleHash)
      (.ok ⟨200, .json ⟨[("lib", [("lib.go", "package lib")]),
        ("main", [("a.go", "package main")])]⟩⟩))) ∧
    emitted (effects (fetchEnv ("/" ++ sampleHash)
      (.ok ⟨200, .json ⟨[("lib", [("lib.go", "package lib")]),
        ("main", [("a.go", "package main")])]⟩⟩)) ⟨.Load⟩ sampleState) =
      [.ChangeSplit (resolvedSizes (fetchEnv ("/" ++ sampleHash)
        (.ok ⟨200, .json ⟨[("lib", [("lib.go", "package lib")]),
          ("main", [("a.go", "package main")])]⟩⟩)) sampleState),
       .LoadFiles [("a.go", "package main")] ""] :=
  ⟨by decide, by decide,
    (load_hash_emits_main (fetchEnv ("/" ++ sampleHash)
      (.ok ⟨200, .json ⟨[("lib", [("lib.go", "package lib")]),
        ("main", [("a.go", "package main")])]⟩⟩)) sampleState
      ⟨[("lib", [("lib.go", "package lib")]), ("main", [("a.go", "package main")])]⟩
      [("a.go", "package main")] (by decide) (by decide) rfl (by decide)).1⟩

/-! ## The dispatch entry point -/

/-- C12: `Handle` returns true for every payload, every behaviour of the
collaborators and every state: for the six consumed kinds, for any other kind
and on every failure path. Its result carries no error. -/
theorem handle_always_handled (env : Env) (payload : Payload) (s : State) :
    (Handle env payload s).1 = true := by
  simp only [Handle]
  repeat' split
  all_goals rfl

/-! ## Split sizes at load -/

/-- C14: when the read of `split-sizes` fails during `Load`, the handler reports
that error and stops: the whole call is that read followed by the report, so
nothing is dispatched, no other key is read and nothing is fetched, for every
location. -/
theorem load_stops_on_sizes_error (env : Env) (s : State) (err : Error)
    (hs : (readSizes env s).err = some err) :
    effects env ⟨.Load⟩ s = [.find "split-sizes", .fail err] ∧
    failures (effects env ⟨.Load⟩ s) = [err] ∧
    emitted (effects env ⟨.Load⟩ s) = [] ∧
    keysRead (effects env ⟨.Load⟩ s) = ["split-sizes"] ∧
    fetched (effects env ⟨.Load⟩ s) = [] := by
  rw [effects_Load_sizes_error env s err hs]
  simp [failures, emitted, keysRead, fetched]

theorem load_stops_on_sizes_error_witness :
    (readSizes (brokenEnv ("/" ++ sampleHash) "split-sizes") storedState).err =
      some "storage unavailable" ∧
    effects (brokenEnv ("/" ++ sampleHash) "split-sizes") ⟨.Load⟩ storedState =
      [.find "split-sizes", .fail "storage unavailable"] :=
  ⟨by decide,
    (load_stops_on_sizes_error (brokenEnv ("/" ++ sampleHash) "split-sizes") storedState
      "storage unavailable" (by decide)).1⟩

/-- C15: for every `Load` whose read of `split-sizes` does not fail, the call
starts with that read followed at once by the dispatch of `ChangeSplit` with
the resolved sizes (the stored value if there is one, `[50, 50]` if the key is
absent); it is the first action dispatched, before any file resolution, every
failure reported comes after it, and no later step dispatches another
`ChangeSplit`. -/
theorem load_change_split_first (env : Env) (s : State)
    (hs : (readSizes env s).err = none) :
    (emitted (effects env ⟨.Load⟩ s)).head? = some (.ChangeSplit (resolvedSizes env s)) ∧
    (∃ rest, effects env ⟨.Load⟩ s =
        .find "split-sizes" :: .dispatch (.ChangeSplit (resolvedSizes env s)) :: rest ∧
      failures (effects env ⟨.Load⟩ s) = failures rest ∧
      ∀ x, Effect.dispatch (.ChangeSplit x) ∉ rest) ∧
    (s.items.lookup "split-sizes" = none → resolvedSizes env s = [50, 50]) ∧
    (∀ v, s.items.lookup "split-sizes" = some (.sizes v) → resolvedSizes env s = v) := by
  obtain ⟨rest, h, hrest⟩ := effects_Load_start env s hs
  have he : env.findErr "split-sizes" = none := by
    cases hf : env.findErr "split-sizes" with
    | none => rfl
    | some e => simp [readSizes, Find, readItem, hf] at hs
  refine ⟨?_, ⟨rest, h, ?_, hrest⟩, ?_, ?_⟩
  · rw [h]
    simp [emitted]
  · rw [h]
    simp [failures]
  · intro hl
    simp [resolvedSizes, readSizes, Find, readItem, he, hl, defaultSizes]
  · intro v hl
    simp [resolvedSizes, readSizes, Find, readItem, he, hl, Value.toSizes]

theorem load_change_split_first_witness :
    (readSizes (fetchEnv ("/" ++ sampleHash) (.ok ⟨404, .invalid "not json"⟩))
      storedState).err = none ∧
    (emitted (effects (fetchEnv ("/" ++ sampleHash) (.ok ⟨404, .invalid "not json"⟩))
      ⟨.Load⟩ storedState)).head? =
      some (.ChangeSplit (resolvedSizes
        (fetchEnv ("/" ++ sampleHash) (.ok ⟨404, .invalid "not json"⟩)) storedState)) ∧
    resolvedSizes (fetchEnv ("/" ++ sampleHash) (.ok ⟨404, .invalid "not json"⟩))
      storedState = [30, 70] ∧
    failures (effects (fetchEnv ("/" ++ sampleHash) (.ok ⟨404, .invalid "not json"⟩))
      ⟨.Load⟩ storedState) = ["error 404 loading source"] :=
  ⟨by decide,
    (load_change_split_first (fetchEnv ("/" ++ sampleHash) (.ok ⟨404, .invalid "not json"⟩))
      storedState (by decide)).1,
    by decide, by decide⟩

/-! ## Failure reporting -/

/-- C13: for every payload, every behaviour of the collaborators and every
state, the failures reported by one call of `Handle` are exactly the errors of
the operations it performed (reads and saves of the store, the fetch and its
status, the decoding of the body down to its `main` package), there is at most
one of them, and a report is the last effect of the call. -/
theorem fail_reported_exactly_once (env : Env) (payload : Payload) (s : State) :
    failures (effects env payload s) =
      operationErrors env s.items none (effects env payload s) ∧
    (failures (effects env payload s)).length ≤ 1 ∧
    ∀ err, Effect.fail err ∈ effects env payload s →
      (effects env payload s).getLast? = some (.fail err) := by
  obtain ⟨a⟩ := payload
  cases a with
  | Load =>
    rcases hs : (readSizes env s).err with _ | e
    · by_cases h1 : locationOf env = ""
      · rcases hfe : (readFiles env s).err with _ | e
        · by_cases hfound : (readFiles env s).found = true
          · rcases hce : (readCurrent env s).err with _ | e
            · rw [effects_Load_stored env s hs h1 hfe hfound hce]
              simp [failures, operationErrors, findError_sizes, findError_files,
                findError_current, hs, hfe, hce]
            · rw [effects_Load_current_error env s e hs h1 hfe hfound hce]
              simp [failures, operationErrors, findError_sizes, findError_files,
                findError_current, hs, hfe, hce]
          · rw [Bool.not_eq_true] at hfound
            rw [effects_Load_default env s hs h1 hfe hfound]
            simp [failures, operationErrors, findError_sizes, findError_files, hs, hfe]
        · rw [effects_Load_files_error env s e hs h1 hfe]
          simp [failures, operationErrors, findError_sizes, findError_files, hs, hfe]
      · by_cases h2 : shaRegex.MatchString (locationOf env) = true
        · rcases hg : env.Get (shareURL env (locationOf env)) with e | ⟨code, body⟩
          · rw [effects_Load_get_error env s e hs h2 hg]
            simp [failures, operationErrors, findError_sizes, hs, hg]
          · by_cases hc : code = 200
            · subst hc
              rcases body with e | m
              · rw [effects_Load_decode_error env s e hs h2 hg]
                simp [failures, operationErrors, findError_sizes, hs, hg, statusError,
                  mainError]
              · rcases hm : m.Source.lookup "main" with _ | files
                · rw [effects_Load_no_main env s m hs h2 hg hm]
                  simp [failures, operationErrors, findError_sizes, hs, hg, statusError,
                    mainError, hm]
                · rw [effects_Load_main env s m files hs h2 hg hm]
                  simp [failures, operationErrors, findError_sizes, hs, hg, statusError,
                    mainError, hm]
            · rw [effects_Load_status env s ⟨code, body⟩ hs h2 hg hc]
              simp [failures, operationErrors, findError_sizes, hs, hg, statusError, hc]
        · rw [Bool.not_eq_true] at h2
          rw [effects_Load_package env s hs h1 h2]
          simp [failures, operationErrors, findError_sizes, hs]
    · rw [effects_Load_sizes_error env s e hs]
      simp [failures, operationErrors, findError_sizes, hs]
  | UserChangedSplit sz =>
    rw [effects_UserChangedSplit]
    cases h1 : env.saveErr "split-sizes" (.sizes sz) <;>
      simp [failures, operationErrors, h1]
  | UserChangedText =>
    rw [effects_UserChangedText]
    cases h1 : env.saveErr "files" (.files (Wait env ⟨.UserChangedText⟩ s).editor.files) <;>
      simp [failures, operationErrors, h1]
  | UserChangedFile =>
    rw [effects_UserChangedFile]
    cases h1 : env.saveErr "current-file"
        (.text (Wait env ⟨.UserChangedFile⟩ s).editor.current) <;>
      simp [failures, operationErrors, h1]
  | AddFile =>
    rw [effects_AddDelete env s .AddFile (Or.inl rfl)]
    cases h1 : env.saveErr "files" (.files (Wait env ⟨.AddFile⟩ s).editor.files) with
    | some e => simp [failures, operationErrors, h1]
    | none =>
      cases h2 : env.saveErr "current-file"
          (.text (Wait env ⟨.AddFile⟩ s).editor.current) <;>
        simp [failures, operationErrors, h1, h2]
  | DeleteFile =>
    rw [effects_AddDelete env s .DeleteFile (Or.inr rfl)]
    cases h1 : env.saveErr "files" (.files (Wait env ⟨.DeleteFile⟩ s).editor.files) with
    | some e => simp [failures, operationErrors, h1]
    | none =>
      cases h2 : env.saveErr "current-file"
          (.text (Wait env ⟨.DeleteFile⟩ s).editor.current) <;>
        simp [failures, operationErrors, h1, h2]
  | ChangeSplit sz =>
    rw [effects_unmatched env s (.ChangeSplit sz) (by simp) (by simp) rfl]
    simp [failures, operationErrors]
  | LoadFiles f c =>
    rw [effects_unmatched env s (.LoadFiles f c) (by simp) (by simp) rfl]
    simp [failures, operationErrors]
  | GetStart path =>
    rw [effects_unmatched env s (.GetStart path) (by simp) (by simp) rfl]
    simp [failures, operationErrors]
  | Other kind =>
    rw [effects_unmatched env s (.Other kind) (by simp) (by simp) rfl]
    simp [failures, operationErrors]

/-! ## Ordering and frame of the persistence writes -/

/-- C16: write-after-settle. While handling `UserChangedText`,
`UserChangedFile`, `AddFile` or `DeleteFile`, the wait on the editor store is
the first effect: every read of the editor's file set or current file and every
save comes after it. When the call ends the editor store has handled the
payload, and every value saved is the one held by the editor store after it
handled the payload. -/
theorem write_after_settle (env : Env) (s : State) (a : Action)
    (ha : a.isFileEvent = true) :
    (effects env ⟨a⟩ s).head? = some .wait ∧
    (∀ pre e post, effects env ⟨a⟩ s = pre ++ e :: post → e.needsSettled = true →
      Effect.wait ∈ pre) ∧
    (Handle env ⟨a⟩ s).2.editorDone = true ∧
    (∀ kv ∈ saves (effects env ⟨a⟩ s),
      kv = ("files", .files
        (if s.editorDone then s.editor else env.editorHandle ⟨a⟩ s.editor).files) ∨
      kv = ("current-file", .text
        (if s.editorDone then s.editor else env.editorHandle ⟨a⟩ s.editor).current)) := by
  obtain ⟨rest, h, hr⟩ := effects_fileEvent env s a ha
  refine ⟨by rw [h]; rfl, ?_, Handle_fileEvent_editorDone env s a ha, ?_⟩
  · intro pre e post heq hn
    rw [h] at heq
    cases pre with
    | nil =>
      have he : Effect.wait = e := (List.cons.inj heq).1
      subst he
      exact absurd hn (by decide)
    | cons p pre1 =>
      have hp : Effect.wait = p := (List.cons.inj heq).1
      subst hp
      exact List.mem_cons_self _ _
  · intro kv hkv
    rw [h] at hkv
    simp only [saves, List.filterMap_cons, List.mem_filterMap] at hkv
    obtain ⟨e, he, hsome⟩ := hkv
    rw [← Wait_editor]
    rcases hr e he with rfl | rfl | rfl | rfl | ⟨err, rfl⟩
    · simp at hsome
    · simp at hsome
    · left
      simpa using hsome.symm
    · right
      simpa using hsome.symm
    · simp at hsome

theorem write_after_settle_witness :
    Action.AddFile.isFileEvent = true ∧
    (effects (sampleEnv "/") ⟨.AddFile⟩ sampleState).head? = some .wait ∧
    effects (sampleEnv "/") ⟨.AddFile⟩ sampleState =
      [.wait, .editorFiles, .save "files" (.files [("main.go", "package main")]),
       .editorCurrent, .save "current-file" (.text "main.go")] :=
  ⟨by decide, (write_after_settle (sampleEnv "/") sampleState .AddFile (by decide)).1,
    by decide⟩

/-- C17: handling `UserChangedSplit` with sizes sz performs exactly one storage
write, of sz under `split-sizes`, without waiting on the editor store and
without reading it, and leaves what is stored under `files` and `current-file`;
conversely `UserChangedText`, `UserChangedFile`, `AddFile` and `DeleteFile`
never write `split-sizes` and leave what is stored under it. -/
theorem split_persistence_independent (env : Env) (s : State) (sz : List Float64) :
    saves (effects env ⟨.UserChangedSplit sz⟩ s) = [("split-sizes", .sizes sz)] ∧
    Effect.wait ∉ effects env ⟨.UserChangedSplit sz⟩ s ∧
    Effect.editorFiles ∉ effects env ⟨.UserChangedSplit sz⟩ s ∧
    Effect.editorCurrent ∉ effects env ⟨.UserChangedSplit sz⟩ s ∧
    (Handle env ⟨.UserChangedSplit sz⟩ s).2.items.lookup "files" = s.items.lookup "files" ∧
    (Handle env ⟨.UserChangedSplit sz⟩ s).2.items.lookup "current-file" =
      s.items.lookup "current-file" ∧
    ∀ a : Action, a.isFileEvent = true →
      (∀ kv ∈ saves (effects env ⟨a⟩ s), kv.1 ≠ "split-sizes") ∧
      (Handle env ⟨a⟩ s).2.items.lookup "split-sizes" = s.items.lookup "split-sizes" := by
  refine ⟨?_, ?_, ?_, ?_, Handle_UserChangedSplit_lookup env s sz "files" (by decide),
    Handle_UserChangedSplit_lookup env s sz "current-file" (by decide), ?_⟩
  · rw [effects_UserChangedSplit]
    cases env.saveErr "split-sizes" (.sizes sz) <;> simp [saves]
  · rw [effects_UserChangedSplit]
    cases env.saveErr "split-sizes" (.sizes sz) <;> simp
  · rw [effects_UserChangedSplit]
    cases env.saveErr "split-sizes" (.sizes sz) <;> simp
  · rw [effects_UserChangedSplit]
    cases env.saveErr "split-sizes" (.sizes sz) <;> simp
  · intro a ha
    refine ⟨?_, Handle_fileEvent_lookup env s a ha "split-sizes" (by decide) (by decide)⟩
    obtain ⟨rest, h, hr⟩ := effects_fileEvent env s a ha
    intro kv hkv
    rw [h] at hkv
    simp only [saves, List.filterMap_cons, List.mem_filterMap] at hkv
    obtain ⟨e, he, hsome⟩ := hkv
    rcases hr e he with rfl | rfl | rfl | rfl | ⟨err, rfl⟩
    · simp at hsome
    · simp at hsome
    · have : kv = ("files", Value.files (Wait env ⟨a⟩ s).editor.files) := by
        simpa using hsome.symm
      rw [this]
      show "files" ≠ "split-sizes"
      decide
    · have : kv = ("current-file", Value.text (Wait env ⟨a⟩ s).editor.current) := by
        simpa using hsome.symm
      rw [this]
      show "current-file" ≠ "split-sizes"
      decide
    · simp at hsome

theorem split_persistence_independent_witness :
    saves (effects (sampleEnv "/") ⟨.UserChangedSplit [30, 70]⟩ storedState) =
      [("split-sizes", .sizes [30, 70])] ∧
    (Action.DeleteFile.isFileEvent = true ∧
      (Handle (sampleEnv "/") ⟨.DeleteFile⟩ storedState).2.items.lookup "split-sizes" =
        storedState.items.lookup "split-sizes") :=
  ⟨(split_persistence_independent (sampleEnv "/") storedState [30, 70]).1,
    by decide,
    ((split_persistence_independent (sampleEnv "/") storedState [30, 70]).2.2.2.2.2.2
      .DeleteFile (by decide)).2⟩

/-- C18: handling `UserChangedText` performs exactly one storage write, of the
editor's file set (as it is once the editor store has handled the payload)
under `files`, and leaves what is stored under `current-file`; handling
`UserChangedFile` performs exactly one storage write, of the editor's current
file name under `current-file`, and leaves what is stored under `files`. -/
theorem text_and_file_single_write (env : Env) (s : State) :
    saves (effects env ⟨.UserChangedText⟩ s) =
      [("files", .files
        (if s.editorDone then s.editor
          else env.editorHandle ⟨.UserChangedText⟩ s.editor).files)] ∧
    (Handle env ⟨.UserChangedText⟩ s).2.items.lookup "current-file" =
      s.items.lookup "current-file" ∧
    saves (effects env ⟨.UserChangedFile⟩ s) =
      [("current-file", .text
        (if s.editorDone then s.editor
          else env.editorHandle ⟨.UserChangedFile⟩ s.editor).current)] ∧
    (Handle env ⟨.UserChangedFile⟩ s).2.items.lookup "files" = s.items.lookup "files" := by
  refine ⟨?_, Handle_UserChangedText_lookup env s "current-file" (by decide), ?_,
    Handle_UserChangedFile_lookup env s "files" (by decide)⟩
  · rw [effects_UserChangedText, ← Wait_editor]
    cases env.saveErr "files" (.files (Wait env ⟨.UserChangedText⟩ s).editor.files) <;>
      simp [saves]
  · rw [effects_UserChangedFile, ← Wait_editor]
    cases env.saveErr "current-file"
        (.text (Wait env ⟨.UserChangedFile⟩ s).editor.current) <;>
      simp [saves]

/-- C19: handling `Load` never writes to the store: for every location and
every outcome of the reads and of the fetch, no save is performed and the
store after the call is the store before it, so what is stored under
`split-sizes`, `files` and `current-file` is unchanged. -/
theorem load_never_writes (env : Env) (s : State) :
    saves (effects env ⟨.Load⟩ s) = [] ∧
    (Handle env ⟨.Load⟩ s).2.items = s.items ∧
    (Handle env ⟨.Load⟩ s).2.items.lookup "split-sizes" = s.items.lookup "split-sizes" ∧
    (Handle env ⟨.Load⟩ s).2.items.lookup "files" = s.items.lookup "files" ∧
    (Handle env ⟨.Load⟩ s).2.items.lookup "current-file" = s.items.lookup "current-file" := by
  have hi := Handle_Load_items env s
  refine ⟨?_, hi, by rw [hi], by rw [hi], by rw [hi]⟩
  rcases hs : (readSizes env s).err with _ | e
  · by_cases h1 : locationOf env = ""
    · rcases effects_Load_local_cases env s hs h1 with ⟨e, h⟩ | h | ⟨e, h⟩ | ⟨f, c, h⟩ <;>
        simp [h, saves]
    · by_cases h2 : shaRegex.MatchString (locationOf env) = true
      · rcases effects_Load_hash_cases env s hs h2 with ⟨e, h⟩ | ⟨e, h⟩ | ⟨f, h⟩ <;>
          simp [h, saves]
      · rw [Bool.not_eq_true] at h2
        simp [effects_Load_package env s hs h1 h2, saves]
  · simp [effects_Load_sizes_error env s e hs, saves]

/-- C20: with an empty location, a file set F stored under `files`, no
`current-file` in the store and no read failing, `Load` dispatches `LoadFiles`
with Files = F and the empty Current and reports no failure; the Current is
not the default `main.go`. -/
theorem load_stored_files_without_current (env : Env) (s : State) (F : FileSet)
    (hs : (readSizes env s).err = none) (h1 : locationOf env = "")
    (he : ∀ key, env.findErr key = none)
    (hF : s.items.lookup "files" = some (.files F))
    (hc : s.items.lookup "current-file" = none) :
    emitted (effects env ⟨.Load⟩ s) = [.ChangeSplit (resolvedSizes env s), .LoadFiles F ""] ∧
    failures (effects env ⟨.Load⟩ s) = [] ∧
    "" ≠ defaultFile := by
  have rf : readFiles env s = ⟨F, true, none⟩ := by
    simp [readFiles, Find, readItem, he, hF, Value.toFiles]
  have rc : readCurrent env s = ⟨"", false, none⟩ := by
    simp [readCurrent, Find, readItem, he, hc]
  have h := effects_Load_stored env s hs h1 (by rw [rf]) (by rw [rf]) (by rw [rc])
  rw [h, rf, rc]
  refine ⟨?_, ?_, by decide⟩
  · simp [emitted]
  · simp [failures]

theorem load_stored_files_without_current_witness :
    (readSizes (sampleEnv "/") filesOnlyState).err = none ∧
    locationOf (sampleEnv "/") = "" ∧
    (∀ key, (sampleEnv "/").findErr key = none) ∧
    filesOnlyState.items.lookup "files" = some (.files [("a.go", "x")]) ∧
    filesOnlyState.items.lookup "current-file" = none ∧
    emitted (effects (sampleEnv "/") ⟨.Load⟩ filesOnlyState) =
      [.ChangeSplit (resolvedSizes (sampleEnv "/") filesOnlyState),
       .LoadFiles [("a.go", "x")] ""] ∧
    "" ∉ ([("a.go", "x")] : FileSet).map Prod.fst :=
  ⟨by decide, by decide, fun _ => rfl, by decide, by decide,
    (load_stored_files_without_current (sampleEnv "/") filesOnlyState [("a.go", "x")]
      (by decide) (by decide) (fun _ => rfl) (by decide) (by decide)).1,
    by decide⟩

end Stores
